import Mathlib

/-!
Verification of the constrained placement engine and relationship
inferencer of CLEVR-ER (`render_images.py`).

The engine (`add_random_objects`) is embedded as an executable Lean
function over exact rationals.  Randomness is modelled by an explicit
stream of tagged draw values (`RVal`): each call to the random API
consumes the head of the stream, and a stream value outside the range the
API can produce (or an exhausted stream / exhausted fuel) makes the run
answer `stuck`, i.e. the stream was not a possible trace of the Python
random generator.  Uncaught Python exceptions are the `error` outcome.

Radii may be divided by √2 (the cube adjustment), so stored radii are
represented exactly as `a + b·√2` with `a b : ℚ` (`Q2`); the single
comparison against `math.sqrt(dx²+dy²+dz²)` performed by the source is
decided by `sqrtLtQ2`, proved correct against `Real.sqrt` below.
-/

namespace ClevrEr

/-- A 3-vector of rationals (positions and direction vectors). -/
structure Vec3 where
  x : ℚ
  y : ℚ
  z : ℚ
deriving DecidableEq, Repr

/-- Numbers of the form `a + b·√2` with `a b : ℚ`.  Catalog radii are
rational; the cube adjustment divides a radius by `√2`, which lands in
this set, and sums of such radii stay in it. -/
structure Q2 where
  a : ℚ
  b : ℚ
deriving DecidableEq, Repr

/-- Embed a rational into `Q2`. -/
def Q2.ofRat (q : ℚ) : Q2 := ⟨q, 0⟩

/-- Addition on `Q2`. -/
def Q2.add (u v : Q2) : Q2 := ⟨u.a + v.a, u.b + v.b⟩

/-- Multiplication on `Q2` (using `√2 · √2 = 2`). -/
def Q2.mul (u v : Q2) : Q2 := ⟨u.a * v.a + 2 * (u.b * v.b), u.a * v.b + u.b * v.a⟩

/-- `q / √2` as an element of `Q2`: `q / √2 = (q/2)·√2`. -/
def Q2.divSqrt2 (q : ℚ) : Q2 := ⟨0, q / 2⟩

/-- The real number denoted by a `Q2` value. -/
noncomputable def Q2.toReal (u : Q2) : ℝ := (u.a : ℝ) + (u.b : ℝ) * Real.sqrt 2

/-- Decides `u < v` over the reals, by sign analysis and squaring of
`p < q·√2` where `p = u.a - v.a` and `q = v.b - u.b`. -/
def Q2.blt (u v : Q2) : Bool :=
  if 0 ≤ u.a - v.a then
    if v.b - u.b ≤ 0 then false
    else decide ((u.a - v.a) ^ 2 < 2 * (v.b - u.b) ^ 2)
  else
    if 0 ≤ v.b - u.b then true
    else decide (2 * (v.b - u.b) ^ 2 < (u.a - v.a) ^ 2)

/-- Decides `Real.sqrt s < u.toReal` for `0 ≤ s`: false when `u ≤ 0`,
otherwise compare `s` with `u²`. -/
def sqrtLtQ2 (s : ℚ) (u : Q2) : Bool :=
  (Q2.ofRat 0).blt u && (Q2.ofRat s).blt (u.mul u)

theorem Q2.toReal_ofRat (q : ℚ) : (Q2.ofRat q).toReal = (q : ℝ) := by
  simp [Q2.ofRat, Q2.toReal]

theorem Q2.toReal_add (u v : Q2) : (u.add v).toReal = u.toReal + v.toReal := by
  simp only [Q2.add, Q2.toReal]
  push_cast
  ring

theorem Q2.toReal_mul (u v : Q2) : (u.mul v).toReal = u.toReal * v.toReal := by
  have hsq : Real.sqrt 2 * Real.sqrt 2 = 2 := Real.mul_self_sqrt (by norm_num)
  simp only [Q2.mul, Q2.toReal]
  push_cast
  linear_combination (-(u.b : ℝ) * (v.b : ℝ)) * hsq

theorem Q2.toReal_divSqrt2 (q : ℚ) : (Q2.divSqrt2 q).toReal = (q : ℝ) / Real.sqrt 2 := by
  have h2 : (0:ℝ) < Real.sqrt 2 := Real.sqrt_pos.mpr (by norm_num)
  have hsq : Real.sqrt 2 * Real.sqrt 2 = 2 := Real.mul_self_sqrt (by norm_num)
  simp only [Q2.divSqrt2, Q2.toReal]
  rw [eq_div_iff (ne_of_gt h2)]
  push_cast
  linear_combination ((q : ℝ) / 2) * hsq

theorem rat_lt_mul_sqrt2_iff_sq (p q : ℚ) (hp : 0 ≤ p) (hq : 0 < q) :
    (p : ℝ) < (q : ℝ) * Real.sqrt 2 ↔ p ^ 2 < 2 * q ^ 2 := by
  have h2 : (0:ℝ) < Real.sqrt 2 := Real.sqrt_pos.mpr (by norm_num)
  have hsq : Real.sqrt 2 * Real.sqrt 2 = 2 := Real.mul_self_sqrt (by norm_num)
  have hq' : (0:ℝ) < (q:ℝ) := by exact_mod_cast hq
  have hp' : (0:ℝ) ≤ (p:ℝ) := by exact_mod_cast hp
  constructor
  · intro h
    have hmul := mul_self_lt_mul_self hp' h
    have hc : (p:ℝ) ^ 2 < 2 * (q:ℝ) ^ 2 := by nlinarith
    exact_mod_cast hc
  · intro h
    have h' : (p:ℝ) ^ 2 < 2 * (q:ℝ) ^ 2 := by exact_mod_cast h
    nlinarith [mul_pos hq' h2]

theorem rat_lt_mul_sqrt2_iff_sq_neg (p q : ℚ) (hp : p < 0) (hq : q < 0) :
    (p : ℝ) < (q : ℝ) * Real.sqrt 2 ↔ 2 * q ^ 2 < p ^ 2 := by
  have h2 : (0:ℝ) < Real.sqrt 2 := Real.sqrt_pos.mpr (by norm_num)
  have hsq : Real.sqrt 2 * Real.sqrt 2 = 2 := Real.mul_self_sqrt (by norm_num)
  have hq' : ((q:ℝ)) < 0 := by exact_mod_cast hq
  have hp' : ((p:ℝ)) < 0 := by exact_mod_cast hp
  have hq2 : (0:ℝ) < -((q:ℝ) * Real.sqrt 2) := by nlinarith
  constructor
  · intro h
    have hle : -((q:ℝ) * Real.sqrt 2) < -(p:ℝ) := by linarith
    have hmul := mul_self_lt_mul_self (le_of_lt hq2) hle
    have hc : 2 * (q:ℝ) ^ 2 < (p:ℝ) ^ 2 := by nlinarith
    exact_mod_cast hc
  · intro h
    have h' : 2 * (q:ℝ) ^ 2 < (p:ℝ) ^ 2 := by exact_mod_cast h
    by_contra hcon
    push_neg at hcon
    have hle : -(p:ℝ) ≤ -((q:ℝ) * Real.sqrt 2) := by linarith
    have hmul := mul_self_le_mul_self (by linarith : (0:ℝ) ≤ -(p:ℝ)) hle
    nlinarith

theorem Q2.blt_eq_true_iff (u v : Q2) : u.blt v = true ↔ u.toReal < v.toReal := by
  have h2 : (0:ℝ) < Real.sqrt 2 := Real.sqrt_pos.mpr (by norm_num)
  have key : (u.toReal < v.toReal) ↔
      ((u.a - v.a : ℚ) : ℝ) < ((v.b - u.b : ℚ) : ℝ) * Real.sqrt 2 := by
    simp only [Q2.toReal]
    push_cast
    constructor <;> intro h <;> nlinarith
  rw [key]
  unfold Q2.blt
  split_ifs with h1 hq1 hq2
  · -- 0 ≤ p, q ≤ 0 : decision is false
    simp only [Bool.false_eq_true, false_iff, not_lt]
    have hq : ((v.b - u.b : ℚ) : ℝ) ≤ 0 := by exact_mod_cast hq1
    have hp : (0:ℝ) ≤ ((u.a - v.a : ℚ) : ℝ) := by exact_mod_cast h1
    nlinarith
  · -- 0 ≤ p, 0 < q : compare squares
    rw [decide_eq_true_iff]
    exact (rat_lt_mul_sqrt2_iff_sq _ _ h1 (by linarith [not_le.mp hq1])).symm
  · -- p < 0, 0 ≤ q : true
    simp only [true_iff]
    have hp : ((u.a - v.a : ℚ) : ℝ) < 0 := by exact_mod_cast not_le.mp h1
    have hq : (0:ℝ) ≤ ((v.b - u.b : ℚ) : ℝ) := by exact_mod_cast hq2
    nlinarith
  · -- p < 0, q < 0 : compare squares, reversed
    rw [decide_eq_true_iff]
    exact (rat_lt_mul_sqrt2_iff_sq_neg _ _ (not_le.mp h1) (not_le.mp hq2)).symm

theorem Q2.blt_eq_false_iff (u v : Q2) : u.blt v = false ↔ v.toReal ≤ u.toReal := by
  rw [← not_lt, ← Q2.blt_eq_true_iff]
  cases h : u.blt v <;> simp [h]

theorem sqrtLtQ2_eq_true_iff (s : ℚ) (u : Q2) :
    sqrtLtQ2 s u = true ↔ Real.sqrt (s : ℝ) < u.toReal := by
  unfold sqrtLtQ2
  rw [Bool.and_eq_true]
  constructor
  · rintro ⟨h0, hlt⟩
    rw [Q2.blt_eq_true_iff] at h0 hlt
    rw [Q2.toReal_ofRat] at h0
    rw [Q2.toReal_ofRat, Q2.toReal_mul] at hlt
    have h0' : (0:ℝ) < u.toReal := by exact_mod_cast h0
    rw [Real.sqrt_lt' h0']
    nlinarith
  · intro h
    have hnn : (0:ℝ) ≤ Real.sqrt (s:ℝ) := Real.sqrt_nonneg _
    have h0 : (0:ℝ) < u.toReal := lt_of_le_of_lt hnn h
    constructor
    · rw [Q2.blt_eq_true_iff, Q2.toReal_ofRat]
      exact_mod_cast h0
    · rw [Q2.blt_eq_true_iff, Q2.toReal_ofRat, Q2.toReal_mul]
      have := (Real.sqrt_lt' h0).mp h
      nlinarith

theorem sqrtLtQ2_eq_false_imp (s : ℚ) (u : Q2)
    (h : sqrtLtQ2 s u = false) : u.toReal ≤ Real.sqrt (s : ℝ) := by
  by_contra hcon
  push_neg at hcon
  rw [← sqrtLtQ2_eq_true_iff s u] at hcon
  rw [h] at hcon
  cases hcon

/-!
The random stream.  Each element is one value produced by Python's
`random` module, tagged with the kind of API call that produced it:
`rint n` for `random.randint` and the index drawn inside `random.choice`,
`unif q` for `random.uniform` / `random.random`.  A draw function rejects
(returns `none`) any head that the corresponding API could not have
produced, so successful runs are exactly the runs on feasible traces.
-/

/-- One value of the random stream. -/
inductive RVal where
  | rint (n : ℕ)
  | unif (q : ℚ)
deriving DecidableEq, Repr

/-- `random.randint(0, hi)`: a natural number `≤ hi`. -/
def drawRandint (hi : ℕ) : List RVal → Option (ℕ × List RVal)
  | RVal.rint n :: s => if n ≤ hi then some (n, s) else none
  | _ => none

/-- `random.choice(l)`: the drawn index must be in range. -/
def drawChoice {α : Type} (l : List α) : List RVal → Option (α × List RVal)
  | RVal.rint n :: s =>
    match l[n]? with
    | some a => some (a, s)
    | none => none
  | _ => none

/-- `random.uniform(lo, hi)`: a rational in `[lo, hi]`. -/
def drawUniform (lo hi : ℚ) : List RVal → Option (ℚ × List RVal)
  | RVal.unif q :: s => if lo ≤ q ∧ q ≤ hi then some (q, s) else none
  | _ => none

/-- `random.random()`: a rational in `[0, 1)`. -/
def drawRandom01 : List RVal → Option (ℚ × List RVal)
  | RVal.unif q :: s => if 0 ≤ q ∧ q < 1 then some (q, s) else none
  | _ => none

/-- Uncaught Python exceptions the engine can raise. -/
inductive PyErr where
  | notImplementedError
  | assertionError
  | indexError
  | keyError
deriving DecidableEq, Repr

/-- The command line arguments `add_random_objects` reads
(`--min_dist`, `--margin`, `--max_retries`, `--min_pixels_per_object`). -/
structure Args where
  minDist : ℚ
  margin : ℚ
  maxRetries : ℕ
  minPixelsPerObject : ℕ
deriving DecidableEq, Repr

/-- The six direction vectors stored in `scene_struct['directions']` by
`render_scene` (lines 291 to 296 of the source). -/
structure Directions where
  behind : Vec3
  front : Vec3
  left : Vec3
  right : Vec3
  above : Vec3
  below : Vec3
deriving DecidableEq, Repr

/-- The catalogs loaded from `properties.json`: ordered association
lists mirroring the JSON objects (`colors` holds the raw 0 to 255 RGB
triples, `sizes` the name/radius pairs). -/
structure Properties where
  colors : List (String × (ℚ × ℚ × ℚ))
  materials : List (String × String)
  shapes : List (String × String)
  sizes : List (String × ℚ)
deriving DecidableEq, Repr

/-- `material_mapping = [(v, k) for k, v in properties['materials'].items()]`. -/
def materialMapping (p : Properties) : List (String × String) :=
  p.materials.map (fun kv => (kv.2, kv.1))

/-- `object_mapping = [(v, k) for k, v in properties['shapes'].items()]`. -/
def objectMapping (p : Properties) : List (String × String) :=
  p.shapes.map (fun kv => (kv.2, kv.1))

/-- `color_name_to_rgba`: each RGB channel divided by 255, alpha 1. -/
def colorNameToRgba (p : Properties) : List (String × (ℚ × ℚ × ℚ × ℚ)) :=
  p.colors.map (fun nc => (nc.1, (nc.2.1 / 255, nc.2.2.1 / 255, nc.2.2.2 / 255, 1)))

/-- Everything `add_random_objects` receives from its environment:
parsed arguments, loaded catalogs, the scene's direction frame, the
optional shape-color compatibility table, the opaque camera projection
collaborator (`utils.get_camera_coords`) and the liquid setup flag. -/
structure Env where
  args : Args
  props : Properties
  dirs : Directions
  combos : Option (List (String × List String))
  cam : Vec3 → ℚ × ℚ × ℚ
  liquidSetup : ℕ

/-- One entry of the scene's `objects` list (the dictionary appended at
lines 519 to 528 of the source).  `coords` is the requested placement
position, which the opaque scene host reports back as `obj.location`. -/
structure SceneObj where
  shape : String
  size : String
  material : String
  coords : Vec3
  rotation : ℚ
  pixelCoords : ℚ × ℚ × ℚ
  color : String
  liquidSrc : Bool
deriving DecidableEq, Repr

/-- One entry of the engine's internal `positions` list: the placed
coordinates and the effective (possibly cube-adjusted) radius appended
at line 490 of the source. -/
structure PosEntry where
  x : ℚ
  y : ℚ
  z : ℚ
  r : Q2
deriving DecidableEq, Repr

/-- Ghost record of the per-object random draws (size name and catalog
radius from line 413, shape and color names from lines 470 to 477),
kept for specification purposes only. -/
structure ObjDraw where
  sizeName : String
  rCat : ℚ
  objName : String
  objNameOut : String
  colorName : String
deriving DecidableEq, Repr

/-- Ghost trace event: one random draw of the final (successful) scene
attempt, tagged with the object index it belongs to.  `pos` stands for
one `(x, y[, z])` position attempt. -/
inductive Ev where
  | size (i : ℕ)
  | pos (i : ℕ)
  | shape (i : ℕ)
  | color (i : ℕ)
  | theta (i : ℕ)
deriving DecidableEq, Repr

/-- The object index an event belongs to. -/
def Ev.idx : Ev → ℕ
  | Ev.size i => i
  | Ev.pos i => i
  | Ev.shape i => i
  | Ev.color i => i
  | Ev.theta i => i

/-- The full block of trace events one placed object contributes:
its size draw, `m ≥ 1` position attempts, then shape, color and
rotation draws. -/
def blockOf (i m : ℕ) : List Ev :=
  Ev.size i :: (List.replicate m (Ev.pos i) ++ [Ev.shape i, Ev.color i, Ev.theta i])

/-- The distance rejection test of lines 440 to 442:
`dist - r - rr < min_dist`, i.e. `sqrt(dx²+dy²+dz²) < min_dist + r + rr`. -/
def distTooClose (minDist r : ℚ) (pe : PosEntry) (x y z : ℚ) : Bool :=
  sqrtLtQ2 ((x - pe.x) * (x - pe.x) + (y - pe.y) * (y - pe.y) + (z - pe.z) * (z - pe.z))
    ((Q2.ofRat (minDist + r)).add pe.r)

/-- The horizontal margin loop of lines 445 to 453: iterate the four
direction vectors in source order, assert `direction_vec[2] == 0`, and
break out (`margins_good = False`) at the first margin strictly inside
`(0, margin)`. -/
def horizMargins (margin dx dy : ℚ) : List Vec3 → Except PyErr Bool
  | [] => Except.ok true
  | v :: rest =>
    if v.z ≠ 0 then Except.error PyErr.assertionError
    else if 0 < dx * v.x + dy * v.y ∧ dx * v.x + dy * v.y < margin then Except.ok false
    else horizMargins margin dx dy rest

/-- The vertical margin loop of lines 454 to 462 (`margin = dz *
direction_vec[2]`, no assertion). -/
def vertMargins (margin dz : ℚ) : List Vec3 → Bool
  | [] => true
  | v :: rest =>
    if 0 < dz * v.z ∧ dz * v.z < margin then false
    else vertMargins margin dz rest

/-- The four horizontal direction vectors in the source's iteration
order `['left', 'right', 'front', 'behind']`. -/
def horizDirs (d : Directions) : List Vec3 := [d.left, d.right, d.front, d.behind]

/-- The two vertical direction vectors in order `['above', 'below']`. -/
def vertDirs (d : Directions) : List Vec3 := [d.above, d.below]

/-- The body of the `for (xx, yy, zz, rr) in positions` loop (lines 439
to 464): distance check first (break on failure, skipping the margin
loops for this and later entries), then the margin loops.  When the
horizontal loop breaks early the vertical loop still runs in the
source, but it is pure and its result is discarded, so the two results
are simply conjoined here. -/
def checkAgainst (minDist margin : ℚ) (d : Directions) (r x y z : ℚ) :
    List PosEntry → Except PyErr Bool
  | [] => Except.ok true
  | pe :: rest =>
    if distTooClose minDist r pe x y z then Except.ok false
    else
      match horizMargins margin (x - pe.x) (y - pe.y) (horizDirs d) with
      | Except.error e => Except.error e
      | Except.ok h =>
        if h && vertMargins margin (z - pe.z) (vertDirs d) then
          checkAgainst minDist margin d r x y z rest
        else Except.ok false

/-- The `z` coordinate of the candidate position (lines 429 to 434):
a fresh uniform draw from `[1, 4]` for object 0, the constant 0 for
object 1, `NotImplementedError` for any later object. -/
def zDraw (i : ℕ) (s : List RVal) : Except PyErr (Option (ℚ × List RVal)) :=
  if i = 0 then Except.ok (drawUniform 1 4 s)
  else if i = 1 then Except.ok (some (0, s))
  else Except.error PyErr.notImplementedError

/-- Result of the `while True` rejection loop for one object. -/
inductive LoopOut where
  | placed (x y z : ℚ) (s : List RVal) (tr : List Ev)
  | restart (s : List RVal)
  | error (e : PyErr)
  | stuck
deriving DecidableEq, Repr

/-- The `while True` rejection loop of lines 419 to 467.  `triesLeft`
counts the remaining allowed attempts: the source increments
`num_tries` and restarts once `num_tries > max_retries`, so exactly
`max_retries` position draws happen before a restart. -/
def placeLoop (minDist margin : ℚ) (d : Directions) (i : ℕ) (r : ℚ)
    (positions : List PosEntry) : ℕ → List RVal → List Ev → LoopOut
  | 0, s, _ => LoopOut.restart s
  | tl + 1, s, tr =>
    match drawUniform (-3) 3 s with
    | none => LoopOut.stuck
    | some (x, s1) =>
      match drawUniform (-3) 3 s1 with
      | none => LoopOut.stuck
      | some (y, s2) =>
        match zDraw i s2 with
        | Except.error e => LoopOut.error e
        | Except.ok none => LoopOut.stuck
        | Except.ok (some (z, s3)) =>
          match checkAgainst minDist margin d r x y z positions with
          | Except.error e => LoopOut.error e
          | Except.ok true => LoopOut.placed x y z s3 (tr ++ [Ev.pos i])
          | Except.ok false =>
            placeLoop minDist margin d i r positions tl s3 (tr ++ [Ev.pos i])

/-- The shape and color draws of lines 470 to 477.  Without a
compatibility table: one choice from `object_mapping` and one from the
color dictionary's items.  With a table: one choice of a (shape,
allowed colors) entry, one choice of a color, then the reverse lookup
`[k for k, v in object_mapping if v == obj_name_out][0]` (IndexError
when empty) and the dictionary access `color_name_to_rgba[color_name]`
(KeyError when missing). -/
def sampleShapeColor (env : Env) (s : List RVal) :
    Except PyErr (Option ((String × String × String × (ℚ × ℚ × ℚ × ℚ)) × List RVal)) :=
  match env.combos with
  | none =>
    match drawChoice (objectMapping env.props) s with
    | none => Except.ok none
    | some ((objName, objNameOut), s1) =>
      match drawChoice (colorNameToRgba env.props) s1 with
      | none => Except.ok none
      | some ((colorName, rgba), s2) =>
        Except.ok (some ((objName, objNameOut, colorName, rgba), s2))
  | some combos =>
    match drawChoice combos s with
    | none => Except.ok none
    | some ((objNameOut, colorChoices), s1) =>
      match drawChoice colorChoices s1 with
      | none => Except.ok none
      | some (colorName, s2) =>
        match ((objectMapping env.props).filter (fun kv => kv.2 = objNameOut)).head? with
        | none => Except.error PyErr.indexError
        | some (objName, _) =>
          match (colorNameToRgba env.props).lookup colorName with
          | none => Except.error PyErr.keyError
          | some rgba => Except.ok (some ((objName, objNameOut, colorName, rgba), s2))

/-- The material selection of lines 493 to 498: index `rand_mat` of
`material_mapping` for object 0, index `1 - rand_mat` for object 1,
`NotImplementedError` beyond; an out-of-range index is an IndexError,
reported as `ok none` here. -/
def pickMaterial (p : Properties) (rm i : ℕ) : Except PyErr (Option (String × String)) :=
  if i = 0 then Except.ok ((materialMapping p)[rm]?)
  else if i = 1 then Except.ok ((materialMapping p)[1 - rm]?)
  else Except.error PyErr.notImplementedError

/-- Result of one iteration of the `for i in range(num_objects)` loop. -/
inductive OneOut where
  | one (o : SceneObj) (pe : PosEntry) (dr : ObjDraw) (s : List RVal) (tr : List Ev)
  | restart (s : List RVal)
  | error (e : PyErr)
  | stuck
deriving Repr

/-- One iteration of the object loop (lines 411 to 528): size draw,
rejection loop, shape and color draws, the cube radius adjustment
`r /= sqrt(2)` of lines 480 to 481, the rotation draw
`theta = 360.0 * random.random()`, and the role-tied material. -/
def placeOne (env : Env) (rm i : ℕ) (positions : List PosEntry)
    (s : List RVal) (tr : List Ev) : OneOut :=
  match drawChoice env.props.sizes s with
  | none => OneOut.stuck
  | some ((sizeName, r), s1) =>
    match placeLoop env.args.minDist env.args.margin env.dirs i r positions
        env.args.maxRetries s1 (tr ++ [Ev.size i]) with
    | LoopOut.stuck => OneOut.stuck
    | LoopOut.error e => OneOut.error e
    | LoopOut.restart s2 => OneOut.restart s2
    | LoopOut.placed x y z s2 tr2 =>
      match sampleShapeColor env s2 with
      | Except.error e => OneOut.error e
      | Except.ok none => OneOut.stuck
      | Except.ok (some ((objName, objNameOut, colorName, _rgba), s3)) =>
        match drawRandom01 s3 with
        | none => OneOut.stuck
        | some (u, s4) =>
          match pickMaterial env.props rm i with
          | Except.error e => OneOut.error e
          | Except.ok none => OneOut.error PyErr.indexError
          | Except.ok (some mat) =>
            OneOut.one
              { shape := objNameOut
                size := sizeName
                material := mat.2
                coords := ⟨x, y, z⟩
                rotation := 360 * u
                pixelCoords := env.cam ⟨x, y, z⟩
                color := colorName
                liquidSrc := decide (0 < env.liquidSetup) && decide (i = 0) }
              ⟨x, y, z, if objName = "Cube" then Q2.divSqrt2 r else Q2.ofRat r⟩
              ⟨sizeName, r, objName, objNameOut, colorName⟩
              s4
              (tr2 ++ [Ev.shape i, Ev.color i] ++ [Ev.theta i])

/-- Result of one whole pass over `range(num_objects)`. -/
inductive PassOut where
  | done (objs : List SceneObj) (positions : List PosEntry) (draws : List ObjDraw)
      (s : List RVal) (tr : List Ev)
  | restart (s : List RVal)
  | error (e : PyErr)
  | stuck
deriving Repr

/-- The `for i in range(num_objects)` loop; `k` is the number of
objects still to place, `i` the current index. -/
def placeAll (env : Env) (rm : ℕ) :
    ℕ → ℕ → List PosEntry → List SceneObj → List ObjDraw → List RVal → List Ev → PassOut
  | _, 0, positions, objs, draws, s, tr => PassOut.done objs positions draws s tr
  | i, k + 1, positions, objs, draws, s, tr =>
    match placeOne env rm i positions s tr with
    | OneOut.one o pe dr s' tr' =>
      placeAll env rm (i + 1) k (positions ++ [pe]) (objs ++ [o]) (draws ++ [dr]) s' tr'
    | OneOut.restart s' => PassOut.restart s'
    | OneOut.error e => PassOut.error e
    | OneOut.stuck => PassOut.stuck

/-- Final outcome of `add_random_objects`: the object list together
with the engine's `positions` list, the ghost draw records and the
ghost trace of the successful attempt (the Blender handles of the
source's second return value are opaque and not modelled). -/
inductive Outcome where
  | ok (objs : List SceneObj) (positions : List PosEntry) (draws : List ObjDraw) (tr : List Ev)
  | error (e : PyErr)
  | stuck
deriving DecidableEq, Repr

/-- `add_random_objects` (lines 386 to 541).  One fuel unit per scene
attempt: each recursive self-call on retry exhaustion (line 426)
consumes one unit; running out of fuel means the run was not observed
to terminate (`stuck`).  `rand_mat = random.randint(0, 1)` is redrawn
by every attempt.  The visibility check of lines 530 to 539 is
faithfully reproduced: `all_visible` is the literal `True` because the
`check_visibility` call is commented out in the source. -/
def addRandomObjects (env : Env) (numObjects : ℕ) : ℕ → List RVal → Outcome
  | 0, _ => Outcome.stuck
  | fuel + 1, s =>
    match drawRandint 1 s with
    | none => Outcome.stuck
    | some (rm, s1) =>
      match placeAll env rm 0 numObjects [] [] [] s1 [] with
      | PassOut.done objs positions draws s2 tr =>
        let allVisible := true
        if allVisible then Outcome.ok objs positions draws tr
        else addRandomObjects env numObjects fuel s2
      | PassOut.restart s2 => addRandomObjects env numObjects fuel s2
      | PassOut.error e => Outcome.error e
      | PassOut.stuck => Outcome.stuck

/-- `add_random_objects` with the dead occlusion-restart branch of
lines 533 to 539 removed; the claim that the branch is unreachable is
the statement that this variant and the faithful embedding agree. -/
def addRandomObjectsNoVis (env : Env) (numObjects : ℕ) : ℕ → List RVal → Outcome
  | 0, _ => Outcome.stuck
  | fuel + 1, s =>
    match drawRandint 1 s with
    | none => Outcome.stuck
    | some (rm, s1) =>
      match placeAll env rm 0 numObjects [] [] [] s1 [] with
      | PassOut.done objs positions draws _s2 tr => Outcome.ok objs positions draws tr
      | PassOut.restart s2 => addRandomObjectsNoVis env numObjects fuel s2
      | PassOut.error e => Outcome.error e
      | PassOut.stuck => Outcome.stuck

/-- The dot product `sum(diff[k] * direction_vec[k] for k in [0,1,2])`
of lines 563 to 564, with `diff = coords2 - coords1`. -/
def dotDiff (c1 c2 v : Vec3) : ℚ :=
  (c2.x - c1.x) * v.x + (c2.y - c1.y) * v.y + (c2.z - c1.z) * v.z

/-- The inner loop of `compute_all_relationships` (lines 559 to 567)
for one object `o1`: collect the indices `j` (counting from the given
start index) of the other objects whose displacement from `o1` has dot
product with `v` exceeding `eps`.  The source inserts into a set and
sorts at the end; since `j` is enumerated in ascending order the
collected list is already sorted. -/
def relatedAux (o1 : SceneObj) (v : Vec3) (eps : ℚ) : ℕ → List SceneObj → List ℕ
  | _, [] => []
  | j, o2 :: rest =>
    if o1 = o2 then relatedAux o1 v eps (j + 1) rest
    else if eps < dotDiff o1.coords o2.coords v then j :: relatedAux o1 v eps (j + 1) rest
    else relatedAux o1 v eps (j + 1) rest

/-- `compute_all_relationships` (lines 544 to 568): iterate the
directions dictionary in insertion order, skip `above` and `below`,
and map every object to its related index list.  `eps` defaults to
0.2. -/
def computeAllRelationships (dirs : List (String × Vec3)) (objs : List SceneObj)
    (eps : ℚ := 1/5) : List (String × List (List ℕ)) :=
  dirs.filterMap fun nv =>
    if nv.1 = "above" ∨ nv.1 = "below" then none
    else some (nv.1, objs.map fun o1 => relatedAux o1 nv.2 eps 0 objs)

/-!
Specification lemmas about the draw functions and the rejection tests.
-/

theorem drawRandint_spec (hi : ℕ) (s : List RVal) (n : ℕ) (s' : List RVal)
    (h : drawRandint hi s = some (n, s')) : n ≤ hi := by
  match s with
  | [] => cases h
  | RVal.rint m :: t =>
    simp only [drawRandint] at h
    split_ifs at h with hle
    cases h
    exact hle
  | RVal.unif q :: t => cases h

theorem drawChoice_mem {α : Type} (l : List α) (s : List RVal) (a : α) (s' : List RVal)
    (h : drawChoice l s = some (a, s')) : a ∈ l := by
  match s with
  | [] => cases h
  | RVal.rint n :: t =>
    simp only [drawChoice] at h
    cases hg : l[n]? with
    | none => simp only [hg] at h; cases h
    | some b =>
      simp only [hg] at h
      obtain ⟨rfl, -⟩ := h
      exact List.getElem?_mem hg
  | RVal.unif q :: t => cases h

theorem drawUniform_spec (lo hi : ℚ) (s : List RVal) (q : ℚ) (s' : List RVal)
    (h : drawUniform lo hi s = some (q, s')) : lo ≤ q ∧ q ≤ hi := by
  match s with
  | [] => cases h
  | RVal.rint m :: t => cases h
  | RVal.unif q0 :: t =>
    simp only [drawUniform] at h
    split_ifs at h with hb
    cases h
    exact hb

theorem horizMargins_spec (margin dx dy : ℚ) :
    ∀ l : List Vec3, horizMargins margin dx dy l = Except.ok true →
      ∀ v ∈ l, v.z = 0 ∧ (dx * v.x + dy * v.y ≤ 0 ∨ margin ≤ dx * v.x + dy * v.y) := by
  intro l
  induction l with
  | nil => intro _ v hv; cases hv
  | cons v0 rest ih =>
    intro h v hv
    unfold horizMargins at h
    split_ifs at h with hz hm
    · -- margin broken: ok false ≠ ok true
      cases h
    · rcases List.mem_cons.mp hv with hv | hv
      · subst hv
        refine ⟨not_ne_iff.mp hz, ?_⟩
        rcases le_or_lt (dx * v.x + dy * v.y) 0 with hle | hpos
        · exact Or.inl hle
        · right
          by_contra hcon
          push_neg at hcon
          exact hm ⟨hpos, hcon⟩
      · exact ih h v hv

theorem vertMargins_spec (margin dz : ℚ) :
    ∀ l : List Vec3, vertMargins margin dz l = true →
      ∀ v ∈ l, dz * v.z ≤ 0 ∨ margin ≤ dz * v.z := by
  intro l
  induction l with
  | nil => intro _ v hv; cases hv
  | cons v0 rest ih =>
    intro h v hv
    unfold vertMargins at h
    split_ifs at h with hm
    rcases List.mem_cons.mp hv with hv | hv
    · subst hv
      rcases le_or_lt (dz * v.z) 0 with hle | hpos
      · exact Or.inl hle
      · right
        by_contra hcon
        push_neg at hcon
        exact hm ⟨hpos, hcon⟩
    · exact ih h v hv

theorem checkAgainst_spec (minDist margin : ℚ) (d : Directions) (r x y z : ℚ) :
    ∀ positions : List PosEntry,
      checkAgainst minDist margin d r x y z positions = Except.ok true →
      ∀ pe ∈ positions,
        distTooClose minDist r pe x y z = false ∧
        horizMargins margin (x - pe.x) (y - pe.y) (horizDirs d) = Except.ok true ∧
        vertMargins margin (z - pe.z) (vertDirs d) = true := by
  intro positions
  induction positions with
  | nil => intro _ pe hpe; cases hpe
  | cons p0 rest ih =>
    intro h pe hpe
    unfold checkAgainst at h
    split_ifs at h with hd
    · cases h
    · cases hh : horizMargins margin (x - p0.x) (y - p0.y) (horizDirs d) with
      | error e => rw [hh] at h; cases h
      | ok hb =>
        rw [hh] at h
        simp only [] at h
        split_ifs at h with hv
        · rcases List.mem_cons.mp hpe with hpe | hpe
          · subst hpe
            simp only [Bool.and_eq_true] at hv
            obtain ⟨hb1, hv1⟩ := hv
            subst hb1
            exact ⟨Bool.not_eq_true _ ▸ Bool.of_not_eq_true hd, hh, hv1⟩
          · exact ih h pe hpe
        · cases h

theorem zDraw_spec (i : ℕ) (s : List RVal) (z : ℚ) (s' : List RVal)
    (h : zDraw i s = Except.ok (some (z, s'))) :
    (i = 0 → 1 ≤ z ∧ z ≤ 4) ∧ (i = 1 → z = 0) ∧ i ≤ 1 := by
  unfold zDraw at h
  split_ifs at h with h0 h1
  · simp only [Except.ok.injEq] at h
    have hb := drawUniform_spec 1 4 s z s' h
    refine ⟨fun _ => hb, fun hc => ?_, by omega⟩
    omega
  · simp only [Except.ok.injEq, Option.some.injEq, Prod.mk.injEq] at h
    refine ⟨fun hc => absurd hc h0, fun _ => h.1.symm, by omega⟩

/-- What holds of one successfully placed object at loop index `i`:
coordinate ranges, the accepted constraint check against all earlier
positions, and the trace of its position attempts. -/
theorem placeLoop_spec (minDist margin : ℚ) (d : Directions) (i : ℕ) (r : ℚ)
    (positions : List PosEntry) :
    ∀ (tl : ℕ) (s : List RVal) (tr : List Ev) (x y z : ℚ) (s' : List RVal) (tr' : List Ev),
      placeLoop minDist margin d i r positions tl s tr = LoopOut.placed x y z s' tr' →
      (-3 ≤ x ∧ x ≤ 3) ∧ (-3 ≤ y ∧ y ≤ 3) ∧
      (i = 0 → 1 ≤ z ∧ z ≤ 4) ∧ (i = 1 → z = 0) ∧ i ≤ 1 ∧
      checkAgainst minDist margin d r x y z positions = Except.ok true ∧
      ∃ m, 1 ≤ m ∧ tr' = tr ++ List.replicate m (Ev.pos i) := by
  intro tl
  induction tl with
  | zero => intro s tr x y z s' tr' h; cases h
  | succ tl ih =>
    intro s tr x y z s' tr' h
    unfold placeLoop at h
    cases hx : drawUniform (-3) 3 s with
    | none => rw [hx] at h; simp at h
    | some px =>
      obtain ⟨x0, s1⟩ := px
      rw [hx] at h
      simp only [] at h
      cases hy : drawUniform (-3) 3 s1 with
      | none => rw [hy] at h; simp at h
      | some py =>
        obtain ⟨y0, s2⟩ := py
        rw [hy] at h
        simp only [] at h
        cases hz : zDraw i s2 with
        | error e => rw [hz] at h; simp at h
        | ok oz =>
          rw [hz] at h
          cases oz with
          | none => simp at h
          | some pz =>
            obtain ⟨z0, s3⟩ := pz
            simp only [] at h
            cases hc : checkAgainst minDist margin d r x0 y0 z0 positions with
            | error e => rw [hc] at h; simp at h
            | ok b =>
              rw [hc] at h
              cases b with
              | true =>
                simp only [LoopOut.placed.injEq] at h
                obtain ⟨rfl, rfl, rfl, rfl, rfl⟩ := h
                refine ⟨drawUniform_spec _ _ _ _ _ hx, drawUniform_spec _ _ _ _ _ hy,
                  ?_, ?_, ?_, hc, 1, le_refl 1, by simp⟩
                · exact (zDraw_spec _ _ _ _ hz).1
                · exact (zDraw_spec _ _ _ _ hz).2.1
                · exact (zDraw_spec _ _ _ _ hz).2.2
              | false =>
                simp only [] at h
                obtain ⟨hb1, hb2, hb3, hb4, hb5, hb6, m, hm, htr⟩ :=
                  ih s3 (tr ++ [Ev.pos i]) x y z s' tr' h
                refine ⟨hb1, hb2, hb3, hb4, hb5, hb6, m + 1, by omega, ?_⟩
                rw [htr, List.append_assoc]
                simp [List.replicate_succ]

/-- What one successful iteration of the object loop guarantees about
the object record, the stored position entry and the ghost draw record
(everything except the trace). -/
def EntryOK (env : Env) (rm j : ℕ) (prior : List PosEntry)
    (o : SceneObj) (pe : PosEntry) (dr : ObjDraw) : Prop :=
  o.coords = ⟨pe.x, pe.y, pe.z⟩ ∧
  o.size = dr.sizeName ∧ o.shape = dr.objNameOut ∧ o.color = dr.colorName ∧
  (dr.sizeName, dr.rCat) ∈ env.props.sizes ∧
  pe.r = (if dr.objName = "Cube" then Q2.divSqrt2 dr.rCat else Q2.ofRat dr.rCat) ∧
  (-3 ≤ pe.x ∧ pe.x ≤ 3) ∧ (-3 ≤ pe.y ∧ pe.y ≤ 3) ∧
  (j = 0 → 1 ≤ pe.z ∧ pe.z ≤ 4) ∧ (j = 1 → pe.z = 0) ∧ j ≤ 1 ∧
  checkAgainst env.args.minDist env.args.margin env.dirs dr.rCat pe.x pe.y pe.z prior =
    Except.ok true ∧
  (j = 0 → ∃ e, (materialMapping env.props)[rm]? = some e ∧ o.material = e.2) ∧
  (j = 1 → ∃ e, (materialMapping env.props)[1 - rm]? = some e ∧ o.material = e.2)

theorem placeOne_spec (env : Env) (rm i : ℕ) (positions : List PosEntry)
    (s : List RVal) (tr : List Ev) (o : SceneObj) (pe : PosEntry) (dr : ObjDraw)
    (s' : List RVal) (tr' : List Ev)
    (h : placeOne env rm i positions s tr = OneOut.one o pe dr s' tr') :
    EntryOK env rm i positions o pe dr ∧ ∃ m, 1 ≤ m ∧ tr' = tr ++ blockOf i m := by
  unfold placeOne at h
  cases hsz : drawChoice env.props.sizes s with
  | none => rw [hsz] at h; simp at h
  | some psz =>
    obtain ⟨⟨sizeName, r⟩, s1⟩ := psz
    rw [hsz] at h
    simp only [] at h
    cases hpl : placeLoop env.args.minDist env.args.margin env.dirs i r positions
        env.args.maxRetries s1 (tr ++ [Ev.size i]) with
    | stuck => rw [hpl] at h; simp at h
    | error e => rw [hpl] at h; simp at h
    | restart s2 => rw [hpl] at h; simp at h
    | placed x y z s2 tr2 =>
      rw [hpl] at h
      simp only [] at h
      cases hsc : sampleShapeColor env s2 with
      | error e => rw [hsc] at h; simp at h
      | ok osc =>
        rw [hsc] at h
        cases osc with
        | none => simp at h
        | some psc =>
          obtain ⟨⟨objName, objNameOut, colorName, rgba⟩, s3⟩ := psc
          simp only [] at h
          cases hth : drawRandom01 s3 with
          | none => rw [hth] at h; simp at h
          | some pth =>
            obtain ⟨u, s4⟩ := pth
            rw [hth] at h
            simp only [] at h
            cases hmt : pickMaterial env.props rm i with
            | error e => rw [hmt] at h; simp at h
            | ok omt =>
              rw [hmt] at h
              cases omt with
              | none => simp at h
              | some mat =>
                simp only [OneOut.one.injEq] at h
                obtain ⟨rfl, rfl, rfl, rfl, rfl⟩ := h
                obtain ⟨hx, hy, hz0, hz1, hi, hchk, m, hm, htr2⟩ :=
                  placeLoop_spec env.args.minDist env.args.margin env.dirs i r positions
                    env.args.maxRetries s1 (tr ++ [Ev.size i]) x y z s2 tr2 hpl
                constructor
                · refine ⟨rfl, rfl, rfl, rfl, drawChoice_mem _ _ _ _ hsz, rfl,
                    hx, hy, hz0, hz1, hi, hchk, ?_, ?_⟩
                  · intro hi0
                    unfold pickMaterial at hmt
                    rw [if_pos hi0] at hmt
                    simp only [Except.ok.injEq] at hmt
                    exact ⟨mat, hmt, rfl⟩
                  · intro hi1
                    unfold pickMaterial at hmt
                    rw [if_neg (by omega), if_pos hi1] at hmt
                    simp only [Except.ok.injEq] at hmt
                    exact ⟨mat, hmt, rfl⟩
                · refine ⟨m, hm, ?_⟩
                  rw [htr2]
                  simp [blockOf]

theorem filter_replicate_ev {α : Type} (n : ℕ) (a : α) (p : α → Bool) :
    (List.replicate n a).filter p = if p a then List.replicate n a else [] := by
  induction n with
  | zero => simp
  | succ k ih => by_cases h : p a <;> simp [List.replicate_succ, h, ih]

theorem blockOf_filter (i j m : ℕ) :
    (blockOf i m).filter (fun e => e.idx == j) = if i = j then blockOf i m else [] := by
  by_cases hij : i = j
  · subst hij
    simp [blockOf, Ev.idx, filter_replicate_ev]
  · simp [blockOf, Ev.idx, filter_replicate_ev, hij]

theorem getElem?_take_lt {α : Type} (l : List α) (m n : ℕ) (h : m < n) :
    (l.take n)[m]? = l[m]? := by
  rw [List.getElem?_take]
  simp [h]

theorem take_succ_last {α : Type} (l : List α) (i : ℕ) (Q : List α) (a : α)
    (heq : l.take (i + 1) = Q ++ [a]) (hQ : Q.length = i) : l[i]? = some a := by
  have h1 : (l.take (i + 1))[i]? = l[i]? := getElem?_take_lt l i (i + 1) (by omega)
  rw [heq] at h1
  rw [← h1, List.getElem?_append_right (by omega)]
  simp [hQ]

theorem take_succ_init {α : Type} (l : List α) (i : ℕ) (Q : List α) (a : α)
    (heq : l.take (i + 1) = Q ++ [a]) (hQ : Q.length = i) : l.take i = Q := by
  have h1 : (l.take (i + 1)).take i = l.take i := by
    rw [List.take_take]
    congr 1
    omega
  rw [← h1, heq, ← hQ, List.take_left]

/-- The master invariant of the object loop: when `placeAll` reaches
`done`, every object of the new segment satisfies `EntryOK` against the
positions placed before it, and the final trace restricted to its index
is exactly its block of draws. -/
theorem placeAll_done_spec (env : Env) (rm : ℕ) :
    ∀ (k i : ℕ) (P : List PosEntry) (O : List SceneObj) (D : List ObjDraw)
      (s : List RVal) (tr : List Ev)
      (O' : List SceneObj) (P' : List PosEntry) (D' : List ObjDraw)
      (s' : List RVal) (tr' : List Ev),
      placeAll env rm i k P O D s tr = PassOut.done O' P' D' s' tr' →
      P.length = i → O.length = i → D.length = i →
      (∀ j, i ≤ j → tr.filter (fun e => e.idx == j) = []) →
      P'.length = i + k ∧ O'.length = i + k ∧ D'.length = i + k ∧
      P'.take i = P ∧ O'.take i = O ∧ D'.take i = D ∧
      (∀ j, j < i → tr'.filter (fun e => e.idx == j) = tr.filter (fun e => e.idx == j)) ∧
      (∀ j, i ≤ j → j < i + k →
        (∃ o pe dr, O'[j]? = some o ∧ P'[j]? = some pe ∧ D'[j]? = some dr ∧
          EntryOK env rm j (P'.take j) o pe dr) ∧
        (∃ m, 1 ≤ m ∧ tr'.filter (fun e => e.idx == j) = blockOf j m)) ∧
      (∀ j, i + k ≤ j → tr'.filter (fun e => e.idx == j) = []) := by
  intro k
  induction k with
  | zero =>
    intro i P O D s tr O' P' D' s' tr' h hP hO hD htr
    simp only [placeAll, PassOut.done.injEq] at h
    obtain ⟨rfl, rfl, rfl, rfl, rfl⟩ := h
    refine ⟨by omega, by omega, by omega, ?_, ?_, ?_, fun j _ => rfl, ?_, ?_⟩
    · rw [← hP, List.take_length]
    · rw [← hO, List.take_length]
    · rw [← hD, List.take_length]
    · intro j hj1 hj2
      omega
    · intro j hj
      exact htr j (by omega)
  | succ k ih =>
    intro i P O D s tr O' P' D' s' tr' h hP hO hD htr
    unfold placeAll at h
    cases hone : placeOne env rm i P s tr with
    | restart s2 => rw [hone] at h; simp at h
    | error e => rw [hone] at h; simp at h
    | stuck => rw [hone] at h; simp at h
    | one o pe dr s2 tr2 =>
      rw [hone] at h
      simp only [] at h
      obtain ⟨hE, m, hm, htr2⟩ := placeOne_spec env rm i P s tr o pe dr s2 tr2 hone
      have htr2' : ∀ j, i + 1 ≤ j → tr2.filter (fun e => e.idx == j) = [] := by
        intro j hj
        rw [htr2, List.filter_append, htr j (by omega), blockOf_filter]
        simp only [List.nil_append]
        rw [if_neg (by omega)]
      obtain ⟨hL1, hL2, hL3, hT1, hT2, hT3, hTr, hMid, hLast⟩ :=
        ih (i + 1) (P ++ [pe]) (O ++ [o]) (D ++ [dr]) s2 tr2 O' P' D' s' tr' h
          (by simp [hP]) (by simp [hO]) (by simp [hD]) htr2'
      have hPi : P'.take i = P := take_succ_init P' i P pe hT1 hP
      have hOi : O'.take i = O := take_succ_init O' i O o hT2 hO
      have hDi : D'.take i = D := take_succ_init D' i D dr hT3 hD
      have htrEq : ∀ j, j < i + 1 →
          tr'.filter (fun e => e.idx == j) =
            tr.filter (fun e => e.idx == j) ++
              (if i = j then blockOf i m else []) := by
        intro j hj
        rw [hTr j hj, htr2, List.filter_append, blockOf_filter]
      refine ⟨by omega, by omega, by omega, hPi, hOi, hDi, ?_, ?_, ?_⟩
      · intro j hj
        rw [htrEq j (by omega), if_neg (by omega), List.append_nil]
      · intro j hj1 hj2
        rcases Nat.lt_or_ge j (i + 1) with hji | hji
        · have hj : j = i := by omega
          subst hj
          constructor
          · refine ⟨o, pe, dr, take_succ_last O' j O o hT2 hO,
              take_succ_last P' j P pe hT1 hP, take_succ_last D' j D dr hT3 hD, ?_⟩
            rw [hPi]
            exact hE
          · refine ⟨m, hm, ?_⟩
            rw [htrEq j (by omega), if_pos rfl, htr j (le_refl j)]
            simp
        · exact hMid j hji (by omega)
      · intro j hj
        exact hLast j (by omega)

/-- Top-level characterization of a successful `add_random_objects`
run: some scene attempt drew `rand_mat ≤ 1` and completed the object
loop from empty accumulators. -/
theorem aro_spec (env : Env) (n : ℕ) :
    ∀ (fuel : ℕ) (s : List RVal) (O : List SceneObj) (P : List PosEntry)
      (D : List ObjDraw) (tr : List Ev),
      addRandomObjects env n fuel s = Outcome.ok O P D tr →
      ∃ rm, rm ≤ 1 ∧
        O.length = n ∧ P.length = n ∧ D.length = n ∧
        (∀ j, j < n →
          ∃ o pe dr, O[j]? = some o ∧ P[j]? = some pe ∧ D[j]? = some dr ∧
            EntryOK env rm j (P.take j) o pe dr) ∧
        (∀ j, j < n → ∃ m, 1 ≤ m ∧ tr.filter (fun e => e.idx == j) = blockOf j m) := by
  intro fuel
  induction fuel with
  | zero => intro s O P D tr h; cases h
  | succ fuel ih =>
    intro s O P D tr h
    unfold addRandomObjects at h
    cases hrm : drawRandint 1 s with
    | none => rw [hrm] at h; simp at h
    | some prm =>
      obtain ⟨rm, s1⟩ := prm
      rw [hrm] at h
      simp only [] at h
      cases hpa : placeAll env rm 0 n [] [] [] s1 [] with
      | restart s2 =>
        rw [hpa] at h
        exact ih s2 O P D tr h
      | error e => rw [hpa] at h; simp at h
      | stuck => rw [hpa] at h; simp at h
      | done objs positions draws s2 tr0 =>
        rw [hpa] at h
        simp only [Outcome.ok.injEq] at h
        obtain ⟨rfl, rfl, rfl, rfl⟩ := h
        obtain ⟨hL1, hL2, hL3, -, -, -, -, hMid, -⟩ :=
          placeAll_done_spec env rm n 0 [] [] [] s1 [] O P D s2 tr hpa
            rfl rfl rfl (fun j _ => rfl)
        refine ⟨rm, drawRandint_spec 1 s rm s1 hrm, by omega, by omega, by omega, ?_, ?_⟩
        · intro j hj
          exact (hMid j (by omega) (by omega)).1
        · intro j hj
          exact (hMid j (by omega) (by omega)).2

/-- The directional margin exclusion between an earlier object at `ci`
and a later object at `cj`: along each of the four horizontal cardinal
directions the signed projection of the displacement `cj - ci` is
either `≤ 0` or `≥ margin` (and the direction vector is horizontal, so
the x/y expression is the full projection); along the vertical pair
the z-component of the direction times the z-displacement obeys the
same exclusion. -/
def MarginOK (margin : ℚ) (d : Directions) (ci cj : Vec3) : Prop :=
  (∀ v ∈ horizDirs d,
    v.z = 0 ∧
    ((cj.x - ci.x) * v.x + (cj.y - ci.y) * v.y ≤ 0 ∨
      margin ≤ (cj.x - ci.x) * v.x + (cj.y - ci.y) * v.y)) ∧
  (∀ v ∈ vertDirs d,
    (cj.z - ci.z) * v.z ≤ 0 ∨ margin ≤ (cj.z - ci.z) * v.z)

/-- The separation actually enforced between an earlier stored position
`pei` and a later one `pej`: the Euclidean distance is at least
`min_dist` plus the later object's catalog radius plus the earlier
object's effective stored radius. -/
def DistOK (minDist rCatJ : ℚ) (pei pej : PosEntry) : Prop :=
  (minDist : ℝ) + (rCatJ : ℝ) + pei.r.toReal ≤
    Real.sqrt (((pej.x - pei.x) * (pej.x - pei.x) + (pej.y - pei.y) * (pej.y - pei.y) +
      (pej.z - pei.z) * (pej.z - pei.z) : ℚ) : ℝ)

/-- The ordering property claimed by the specification: every size draw
of an object happens after all of its position draws. -/
def sizeAfterPositions (tr : List Ev) : Prop :=
  ∀ (i a b : ℕ), tr[a]? = some (Ev.size i) → tr[b]? = some (Ev.pos i) → b < a

theorem aro_pair_check (env : Env) (n fuel : ℕ) (s : List RVal)
    (O : List SceneObj) (P : List PosEntry) (D : List ObjDraw) (tr : List Ev)
    (h : addRandomObjects env n fuel s = Outcome.ok O P D tr)
    (i j : ℕ) (hij : i < j) (pei pej : PosEntry) (drj : ObjDraw)
    (hpi : P[i]? = some pei) (hpj : P[j]? = some pej) (hdj : D[j]? = some drj) :
    distTooClose env.args.minDist drj.rCat pei pej.x pej.y pej.z = false ∧
    horizMargins env.args.margin (pej.x - pei.x) (pej.y - pei.y) (horizDirs env.dirs) =
      Except.ok true ∧
    vertMargins env.args.margin (pej.z - pei.z) (vertDirs env.dirs) = true := by
  obtain ⟨rm, -, hl1, hl2, hl3, hEnt, -⟩ := aro_spec env n fuel s O P D tr h
  have hjn : j < n := by
    have := (List.getElem?_eq_some.mp hpj).1
    omega
  obtain ⟨o, pe, dr, ho, hp, hd, hE⟩ := hEnt j hjn
  rw [hpj] at hp
  rw [hdj] at hd
  obtain rfl : pej = pe := Option.some.inj hp
  obtain rfl : drj = dr := Option.some.inj hd
  obtain ⟨-, -, -, -, -, -, -, -, -, -, -, hchk, -, -⟩ := hE
  have hmem : pei ∈ P.take j := by
    have : (P.take j)[i]? = P[i]? := getElem?_take_lt P i j hij
    exact List.getElem?_mem (this.trans hpi)
  exact checkAgainst_spec env.args.minDist env.args.margin env.dirs drj.rCat
    pej.x pej.y pej.z (P.take j) hchk pei hmem

/-- C1: for every object list returned by `add_random_objects`, for
every pair of placed objects (earlier `i`, later `j`) and each of the
four horizontal cardinal directions, the signed projection of the
displacement between their positions onto that direction is `≤ 0` or
`≥ margin`, never strictly inside `(0, margin)`; the vertical pair
obeys the same exclusion through the z-component of the above/below
vectors times the z-displacement. -/
theorem claim1_directional_margin (env : Env) (n fuel : ℕ) (s : List RVal)
    (O : List SceneObj) (P : List PosEntry) (D : List ObjDraw) (tr : List Ev)
    (h : addRandomObjects env n fuel s = Outcome.ok O P D tr) :
    ∀ (i j : ℕ), i < j → ∀ (oi oj : SceneObj), O[i]? = some oi → O[j]? = some oj →
      MarginOK env.args.margin env.dirs oi.coords oj.coords := by
  intro i j hij oi oj hoi hoj
  obtain ⟨rm, -, hl1, hl2, hl3, hEnt, -⟩ := aro_spec env n fuel s O P D tr h
  have hjn : j < n := by
    have := (List.getElem?_eq_some.mp hoj).1
    omega
  have hin : i < n := by omega
  obtain ⟨o, pe, dr, ho, hp, hd, hE⟩ := hEnt j hjn
  obtain ⟨o', pe', dr', ho', hp', hd', hE'⟩ := hEnt i hin
  rw [hoj] at ho
  rw [hoi] at ho'
  obtain rfl : oj = o := Option.some.inj ho
  obtain rfl : oi = o' := Option.some.inj ho'
  obtain ⟨hd1, hd2, hd3⟩ :=
    aro_pair_check env n fuel s O P D tr h i j hij pe' pe dr hp' hp hd
  have hcj : oj.coords = ⟨pe.x, pe.y, pe.z⟩ := hE.1
  have hci : oi.coords = ⟨pe'.x, pe'.y, pe'.z⟩ := hE'.1
  constructor
  · intro v hv
    have := horizMargins_spec env.args.margin (pe.x - pe'.x) (pe.y - pe'.y)
      (horizDirs env.dirs) hd2 v hv
    rw [hcj, hci]
    exact this
  · intro v hv
    have := vertMargins_spec env.args.margin (pe.z - pe'.z) (vertDirs env.dirs) hd3 v hv
    rw [hcj, hci]
    exact this

/-- C2 (amended): for every pair of placed positions, the Euclidean
distance is at least `min_dist` plus the later object's catalog radius
plus the earlier object's effective stored radius (which is the catalog
radius divided by `√2` when the earlier object is a cube, and the
catalog radius otherwise).  The claim as stated, with both radii taken
from the size catalog, fails when the earlier object is a cube; see the
counterexample. -/
theorem claim2_pairwise_distance (env : Env) (n fuel : ℕ) (s : List RVal)
    (O : List SceneObj) (P : List PosEntry) (D : List ObjDraw) (tr : List Ev)
    (h : addRandomObjects env n fuel s = Outcome.ok O P D tr) :
    ∀ (i j : ℕ), i < j → ∀ (pei pej : PosEntry) (drj : ObjDraw),
      P[i]? = some pei → P[j]? = some pej → D[j]? = some drj →
      DistOK env.args.minDist drj.rCat pei pej := by
  intro i j hij pei pej drj hpi hpj hdj
  obtain ⟨hd1, -, -⟩ := aro_pair_check env n fuel s O P D tr h i j hij pei pej drj hpi hpj hdj
  unfold distTooClose at hd1
  have hle := sqrtLtQ2_eq_false_imp _ _ hd1
  rw [Q2.toReal_add, Q2.toReal_ofRat] at hle
  unfold DistOK
  push_cast at hle ⊢
  linarith

/-- C4: whenever `add_random_objects` returns normally, including
after full restarts, the returned object list has exactly
`num_objects` entries; retry exhaustion is absorbed by the restart and
never produces a partial scene. -/
theorem claim4_full_scene (env : Env) (n fuel : ℕ) (s : List RVal)
    (O : List SceneObj) (P : List PosEntry) (D : List ObjDraw) (tr : List Ev)
    (h : addRandomObjects env n fuel s = Outcome.ok O P D tr) :
    O.length = n := by
  obtain ⟨rm, -, hl1, -⟩ := aro_spec env n fuel s O P D tr h
  exact hl1

/-- C5: in every returned object list, the object at index 0 has its
z-coordinate drawn from `[1, 4]`, the object at index 1 (when present)
has `z = 0`, and every object's x and y coordinates lie in `[-3, 3]`. -/
theorem claim5_role_positions (env : Env) (n fuel : ℕ) (s : List RVal)
    (O : List SceneObj) (P : List PosEntry) (D : List ObjDraw) (tr : List Ev)
    (h : addRandomObjects env n fuel s = Outcome.ok O P D tr) :
    ∀ (j : ℕ) (o : SceneObj), O[j]? = some o →
      (-3 ≤ o.coords.x ∧ o.coords.x ≤ 3) ∧ (-3 ≤ o.coords.y ∧ o.coords.y ≤ 3) ∧
      (j = 0 → 1 ≤ o.coords.z ∧ o.coords.z ≤ 4) ∧ (j = 1 → o.coords.z = 0) := by
  intro j o hoj
  obtain ⟨rm, -, hl1, hl2, hl3, hEnt, -⟩ := aro_spec env n fuel s O P D tr h
  have hjn : j < n := by
    have := (List.getElem?_eq_some.mp hoj).1
    omega
  obtain ⟨o', pe, dr, ho, hp, hd, hE⟩ := hEnt j hjn
  rw [hoj] at ho
  obtain rfl : o = o' := Option.some.inj ho
  obtain ⟨hc, -, -, -, -, -, hx, hy, hz0, hz1, -, -, -, -⟩ := hE
  rw [hc]
  exact ⟨hx, hy, hz0, hz1⟩

/-- C6: with `num_objects = 2`, a single binary draw `rand_mat` made
once per scene attempt fixes the material assignment: object 0 gets the
display name at position `rand_mat` of `material_mapping` and object 1
the one at position `1 - rand_mat`; when those two catalog entries
differ the two objects' materials differ. -/
theorem claim6_material_assignment (env : Env) (fuel : ℕ) (s : List RVal)
    (O : List SceneObj) (P : List PosEntry) (D : List ObjDraw) (tr : List Ev)
    (h : addRandomObjects env 2 fuel s = Outcome.ok O P D tr) :
    ∃ rm, rm ≤ 1 ∧
      ∀ (o0 o1 : SceneObj), O[0]? = some o0 → O[1]? = some o1 →
        (∃ e0, (materialMapping env.props)[rm]? = some e0 ∧ o0.material = e0.2) ∧
        (∃ e1, (materialMapping env.props)[1 - rm]? = some e1 ∧ o1.material = e1.2) ∧
        (∀ (f0 f1 : String × String), (materialMapping env.props)[0]? = some f0 →
          (materialMapping env.props)[1]? = some f1 →
          f0.2 ≠ f1.2 → o0.material ≠ o1.material) := by
  obtain ⟨rm, hrm, hl1, hl2, hl3, hEnt, -⟩ := aro_spec env 2 fuel s O P D tr h
  refine ⟨rm, hrm, ?_⟩
  intro o0 o1 ho0 ho1
  obtain ⟨a0, pe0, dr0, ha0, -, -, hE0⟩ := hEnt 0 (by omega)
  obtain ⟨a1, pe1, dr1, ha1, -, -, hE1⟩ := hEnt 1 (by omega)
  rw [ho0] at ha0
  rw [ho1] at ha1
  obtain rfl : o0 = a0 := Option.some.inj ha0
  obtain rfl : o1 = a1 := Option.some.inj ha1
  obtain ⟨-, -, -, -, -, -, -, -, -, -, -, -, hmat0, -⟩ := hE0
  obtain ⟨-, -, -, -, -, -, -, -, -, -, -, -, -, hmat1⟩ := hE1
  obtain ⟨e0, he0, hm0⟩ := hmat0 rfl
  obtain ⟨e1, he1, hm1⟩ := hmat1 rfl
  refine ⟨⟨e0, he0, hm0⟩, ⟨e1, he1, hm1⟩, ?_⟩
  intro f0 f1 hf0 hf1 hne
  interval_cases rm
  · obtain rfl : f0 = e0 := Option.some.inj (hf0.symm.trans he0)
    obtain rfl : f1 = e1 := Option.some.inj (hf1.symm.trans he1)
    rw [hm0, hm1]
    exact hne
  · obtain rfl : f1 = e0 := Option.some.inj (hf1.symm.trans he0)
    obtain rfl : f0 = e1 := Option.some.inj (hf0.symm.trans he1)
    rw [hm0, hm1]
    exact fun hc => hne hc.symm

/-- C8: the effective radius stored in the `positions` list is the
catalog radius divided by `√2` when the chosen shape asset is the cube,
and the unchanged catalog radius otherwise. -/
theorem claim8_cube_radius (env : Env) (n fuel : ℕ) (s : List RVal)
    (O : List SceneObj) (P : List PosEntry) (D : List ObjDraw) (tr : List Ev)
    (h : addRandomObjects env n fuel s = Outcome.ok O P D tr) :
    ∀ (j : ℕ) (pe : PosEntry) (dr : ObjDraw), P[j]? = some pe → D[j]? = some dr →
      pe.r = (if dr.objName = "Cube" then Q2.divSqrt2 dr.rCat else Q2.ofRat dr.rCat) ∧
      (dr.objName = "Cube" → pe.r.toReal = (dr.rCat : ℝ) / Real.sqrt 2) ∧
      (dr.objName ≠ "Cube" → pe.r.toReal = (dr.rCat : ℝ)) := by
  intro j pe dr hpj hdj
  obtain ⟨rm, -, hl1, hl2, hl3, hEnt, -⟩ := aro_spec env n fuel s O P D tr h
  have hjn : j < n := by
    have := (List.getElem?_eq_some.mp hpj).1
    omega
  obtain ⟨o, pe', dr', ho, hp, hd, hE⟩ := hEnt j hjn
  rw [hpj] at hp
  rw [hdj] at hd
  obtain rfl : pe = pe' := Option.some.inj hp
  obtain rfl : dr = dr' := Option.some.inj hd
  obtain ⟨-, -, -, -, -, hr, -, -, -, -, -, -, -, -⟩ := hE
  refine ⟨hr, ?_, ?_⟩
  · intro hc
    rw [hr, if_pos hc, Q2.toReal_divSqrt2]
  · intro hc
    rw [hr, if_neg hc, Q2.toReal_ofRat]

/-- C9 (amended): in the trace of every successful run, the events of
each placed object form the block size draw first, then `m ≥ 1`
position draws, then the shape, color and rotation draws.  In
particular the size is drawn before the position-rejection loop, not
after a valid position has been accepted as the claim states; see the
counterexample. -/
theorem claim9_draw_order (env : Env) (n fuel : ℕ) (s : List RVal)
    (O : List SceneObj) (P : List PosEntry) (D : List ObjDraw) (tr : List Ev)
    (h : addRandomObjects env n fuel s = Outcome.ok O P D tr) :
    ∀ j, j < n → ∃ m, 1 ≤ m ∧ tr.filter (fun e => e.idx == j) = blockOf j m := by
  obtain ⟨rm, -, -, -, -, -, hTr⟩ := aro_spec env n fuel s O P D tr h
  exact hTr

/-!
Concrete runs used by the witnesses and counterexamples.
-/

/-- Direction frame with `front = (1,0,0)`, `left = (0,-1,0)`,
`above = (0,0,1)` and their negations. -/
def dirsW : Directions :=
  { behind := ⟨-1, 0, 0⟩, front := ⟨1, 0, 0⟩, left := ⟨0, -1, 0⟩,
    right := ⟨0, 1, 0⟩, above := ⟨0, 0, 1⟩, below := ⟨0, 0, -1⟩ }

/-- A small catalog: one color, two materials, a sphere, one size of
radius 0. -/
def propsW : Properties :=
  { colors := [("red", (255, 0, 0))]
    materials := [("rubber", "Rubber"), ("metal", "MyMetal")]
    shapes := [("sphere", "Sphere")]
    sizes := [("small", 0)] }

/-- Environment of the main witness runs. -/
def envW : Env :=
  { args := { minDist := 1, margin := 1, maxRetries := 1, minPixelsPerObject := 200 }
    props := propsW, dirs := dirsW, combos := none
    cam := fun _ => (0, 0, 0), liquidSetup := 0 }

/-- Stream placing object 0 at `(0, 0, 2)` and object 1 at `(2, 0, 0)`
on the first attempt each. -/
def sW : List RVal :=
  [RVal.rint 0, RVal.rint 0, RVal.unif 0, RVal.unif 0, RVal.unif 2,
   RVal.rint 0, RVal.rint 0, RVal.unif 0,
   RVal.rint 0, RVal.unif 2, RVal.unif 0, RVal.rint 0, RVal.rint 0, RVal.unif 0]

def objW0 : SceneObj :=
  { shape := "sphere", size := "small", material := "rubber", coords := ⟨0, 0, 2⟩,
    rotation := 0, pixelCoords := (0, 0, 0), color := "red", liquidSrc := false }

def objW1 : SceneObj :=
  { shape := "sphere", size := "small", material := "metal", coords := ⟨2, 0, 0⟩,
    rotation := 0, pixelCoords := (0, 0, 0), color := "red", liquidSrc := false }

def peW0 : PosEntry := ⟨0, 0, 2, Q2.ofRat 0⟩

def peW1 : PosEntry := ⟨2, 0, 0, Q2.ofRat 0⟩

def drW : ObjDraw := ⟨"small", 0, "Sphere", "sphere", "red"⟩

def objsW : List SceneObj := [objW0, objW1]

def posW : List PosEntry := [peW0, peW1]

def drawsW : List ObjDraw := [drW, drW]

def trW : List Ev :=
  [Ev.size 0, Ev.pos 0, Ev.shape 0, Ev.color 0, Ev.theta 0,
   Ev.size 1, Ev.pos 1, Ev.shape 1, Ev.color 1, Ev.theta 1]

set_option maxHeartbeats 1000000 in
theorem runW_eval : addRandomObjects envW 2 1 sW = Outcome.ok objsW posW drawsW trW := by
  norm_num [addRandomObjects, placeAll, placeOne, placeLoop, drawRandint, drawChoice,
    drawUniform, drawRandom01, zDraw, checkAgainst, distTooClose, horizMargins, vertMargins,
    horizDirs, vertDirs, sqrtLtQ2, Q2.blt, Q2.ofRat, Q2.add, Q2.mul, Q2.divSqrt2,
    sampleShapeColor, pickMaterial, materialMapping, objectMapping, colorNameToRgba,
    envW, propsW, dirsW, sW, objsW, posW, drawsW, trW, objW0, objW1, peW0, peW1, drW]

/-- Stream whose first scene attempt exhausts `max_retries` on object 1
(its first candidate `(1/2, 0, 0)` breaks the `front` margin), forcing
a full restart that then succeeds with the opposite `rand_mat`. -/
def s4 : List RVal :=
  [RVal.rint 0, RVal.rint 0, RVal.unif 0, RVal.unif 0, RVal.unif 2,
   RVal.rint 0, RVal.rint 0, RVal.unif 0,
   RVal.rint 0, RVal.unif (1/2), RVal.unif 0] ++
  [RVal.rint 1, RVal.rint 0, RVal.unif 0, RVal.unif 0, RVal.unif 2,
   RVal.rint 0, RVal.rint 0, RVal.unif 0,
   RVal.rint 0, RVal.unif 2, RVal.unif 0, RVal.rint 0, RVal.rint 0, RVal.unif 0]

def obj40 : SceneObj :=
  { shape := "sphere", size := "small", material := "metal", coords := ⟨0, 0, 2⟩,
    rotation := 0, pixelCoords := (0, 0, 0), color := "red", liquidSrc := false }

def obj41 : SceneObj :=
  { shape := "sphere", size := "small", material := "rubber", coords := ⟨2, 0, 0⟩,
    rotation := 0, pixelCoords := (0, 0, 0), color := "red", liquidSrc := false }

def objs4 : List SceneObj := [obj40, obj41]

set_option maxHeartbeats 1000000 in
theorem run4_eval : addRandomObjects envW 2 2 s4 = Outcome.ok objs4 posW drawsW trW := by
  norm_num [addRandomObjects, placeAll, placeOne, placeLoop, drawRandint, drawChoice,
    drawUniform, drawRandom01, zDraw, checkAgainst, distTooClose, horizMargins, vertMargins,
    horizDirs, vertDirs, sqrtLtQ2, Q2.blt, Q2.ofRat, Q2.add, Q2.mul, Q2.divSqrt2,
    sampleShapeColor, pickMaterial, materialMapping, objectMapping, colorNameToRgba,
    envW, propsW, dirsW, s4, objs4, posW, drawsW, trW, obj40, obj41, peW0, peW1, drW]

/-- Environment of the cube counterexample run: catalog radius 2,
`min_dist = margin = 1/10`, only the cube shape. -/
def envC : Env :=
  { args := { minDist := 1/10, margin := 1/10, maxRetries := 1, minPixelsPerObject := 200 }
    props := { colors := [("red", (255, 0, 0))]
               materials := [("rubber", "Rubber"), ("metal", "MyMetal")]
               shapes := [("cube", "Cube")]
               sizes := [("big", 2)] }
    dirs := dirsW, combos := none
    cam := fun _ => (0, 0, 0), liquidSetup := 0 }

/-- Stream placing cube 0 at `(0, 0, 4)` and cube 1 at `(1/2, 0, 0)`:
their distance `√(65)/2 ≈ 4.03` exceeds `1/10 + 2 + 2/√2 ≈ 3.51` (the
enforced bound, with object 0's stored radius `2/√2`) but not
`1/10 + 2 + 2` (the claimed bound with both catalog radii). -/
def sC : List RVal :=
  [RVal.rint 0, RVal.rint 0, RVal.unif 0, RVal.unif 0, RVal.unif 4,
   RVal.rint 0, RVal.rint 0, RVal.unif 0,
   RVal.rint 0, RVal.unif (1/2), RVal.unif 0, RVal.rint 0, RVal.rint 0, RVal.unif 0]

def objC0 : SceneObj :=
  { shape := "cube", size := "big", material := "rubber", coords := ⟨0, 0, 4⟩,
    rotation := 0, pixelCoords := (0, 0, 0), color := "red", liquidSrc := false }

def objC1 : SceneObj :=
  { shape := "cube", size := "big", material := "metal", coords := ⟨1/2, 0, 0⟩,
    rotation := 0, pixelCoords := (0, 0, 0), color := "red", liquidSrc := false }

def peC0 : PosEntry := ⟨0, 0, 4, Q2.divSqrt2 2⟩

def peC1 : PosEntry := ⟨1/2, 0, 0, Q2.divSqrt2 2⟩

def drC : ObjDraw := ⟨"big", 2, "Cube", "cube", "red"⟩

def objsC : List SceneObj := [objC0, objC1]

def posC : List PosEntry := [peC0, peC1]

def drawsC : List ObjDraw := [drC, drC]

set_option maxHeartbeats 1000000 in
theorem runC_eval : addRandomObjects envC 2 1 sC = Outcome.ok objsC posC drawsC trW := by
  norm_num [addRandomObjects, placeAll, placeOne, placeLoop, drawRandint, drawChoice,
    drawUniform, drawRandom01, zDraw, checkAgainst, distTooClose, horizMargins, vertMargins,
    horizDirs, vertDirs, sqrtLtQ2, Q2.blt, Q2.ofRat, Q2.add, Q2.mul, Q2.divSqrt2,
    sampleShapeColor, pickMaterial, materialMapping, objectMapping, colorNameToRgba,
    envC, dirsW, sC, objsC, posC, drawsC, trW, objC0, objC1, peC0, peC1, drC]

/-- C1 witness: the concrete two-object run, and the margin exclusion
for its pair, obtained from the claim theorem. -/
theorem claim1_directional_margin_witness :
    addRandomObjects envW 2 1 sW = Outcome.ok objsW posW drawsW trW ∧
    MarginOK envW.args.margin envW.dirs objW0.coords objW1.coords :=
  ⟨runW_eval,
    claim1_directional_margin envW 2 1 sW objsW posW drawsW trW runW_eval 0 1 (by omega)
      objW0 objW1 rfl rfl⟩

/-- C2 witness: the concrete two-object run, and the enforced distance
bound for its pair, obtained from the amended claim theorem. -/
theorem claim2_pairwise_distance_witness :
    addRandomObjects envW 2 1 sW = Outcome.ok objsW posW drawsW trW ∧
    DistOK envW.args.minDist drW.rCat peW0 peW1 :=
  ⟨runW_eval,
    claim2_pairwise_distance envW 2 1 sW objsW posW drawsW trW runW_eval 0 1 (by omega)
      peW0 peW1 drW rfl rfl rfl⟩

/-- C2 counterexample: a returned scene whose first object is a cube of
catalog radius 2.  The run is accepted (the enforced bound uses the
stored radius `2/√2`), but the claimed inequality with both catalog
radii fails: `√(65/4) - 2 - 2 < 1/10 = min_dist`. -/
theorem claim2_pairwise_distance_counterexample :
    addRandomObjects envC 2 1 sC = Outcome.ok objsC posC drawsC trW ∧
    posC[0]? = some ⟨0, 0, 4, Q2.divSqrt2 2⟩ ∧
    posC[1]? = some ⟨1/2, 0, 0, Q2.divSqrt2 2⟩ ∧
    drawsC[0]? = some ⟨"big", 2, "Cube", "cube", "red"⟩ ∧
    drawsC[1]? = some ⟨"big", 2, "Cube", "cube", "red"⟩ ∧
    ¬ ((envC.args.minDist : ℝ) ≤
        Real.sqrt (((1/2 - 0) * (1/2 - 0) + (0 - 0) * (0 - 0) + (0 - 4) * (0 - 4) : ℚ) : ℝ)
          - ((2 : ℚ) : ℝ) - ((2 : ℚ) : ℝ)) := by
  refine ⟨runC_eval, rfl, rfl, rfl, rfl, ?_⟩
  intro hc
  have hmd : ((envC.args.minDist : ℚ) : ℝ) = (1/10 : ℝ) := by norm_num [envC]
  have hq : (((1/2 - 0) * (1/2 - 0) + (0 - 0) * (0 - 0) + (0 - 4) * (0 - 4) : ℚ) : ℝ) =
      (65/4 : ℝ) := by norm_num
  rw [hmd, hq] at hc
  have hs : Real.sqrt (65/4 : ℝ) < 41/10 := by
    rw [Real.sqrt_lt' (by norm_num)]
    norm_num
  have : ((2 : ℚ) : ℝ) = (2 : ℝ) := by norm_num
  rw [this] at hc
  linarith

/-- C4 witness: a run whose first scene attempt exhausts the retry
budget on object 1 and restarts; the returned scene still has exactly
2 objects. -/
theorem claim4_full_scene_witness :
    addRandomObjects envW 2 2 s4 = Outcome.ok objs4 posW drawsW trW ∧
    objs4.length = 2 :=
  ⟨run4_eval, claim4_full_scene envW 2 2 s4 objs4 posW drawsW trW run4_eval⟩

/-- C5 witness: coordinate ranges of the first object of the concrete
run, obtained from the claim theorem. -/
theorem claim5_role_positions_witness :
    addRandomObjects envW 2 1 sW = Outcome.ok objsW posW drawsW trW ∧
    ((-3 ≤ objW0.coords.x ∧ objW0.coords.x ≤ 3) ∧
      (-3 ≤ objW0.coords.y ∧ objW0.coords.y ≤ 3) ∧
      (0 = 0 → 1 ≤ objW0.coords.z ∧ objW0.coords.z ≤ 4) ∧
      (0 = 1 → objW0.coords.z = 0)) :=
  ⟨runW_eval,
    claim5_role_positions envW 2 1 sW objsW posW drawsW trW runW_eval 0 objW0 rfl⟩

/-- C6 witness: the material assignment of the concrete run, obtained
from the claim theorem. -/
theorem claim6_material_assignment_witness :
    addRandomObjects envW 2 1 sW = Outcome.ok objsW posW drawsW trW ∧
    (∃ rm, rm ≤ 1 ∧
      ∀ (o0 o1 : SceneObj), objsW[0]? = some o0 → objsW[1]? = some o1 →
        (∃ e0, (materialMapping envW.props)[rm]? = some e0 ∧ o0.material = e0.2) ∧
        (∃ e1, (materialMapping envW.props)[1 - rm]? = some e1 ∧ o1.material = e1.2) ∧
        (∀ (f0 f1 : String × String), (materialMapping envW.props)[0]? = some f0 →
          (materialMapping envW.props)[1]? = some f1 →
          f0.2 ≠ f1.2 → o0.material ≠ o1.material)) :=
  ⟨runW_eval, claim6_material_assignment envW 1 sW objsW posW drawsW trW runW_eval⟩

/-- C8 witness: the cube run's first stored radius is the catalog
radius 2 divided by `√2`, obtained from the claim theorem. -/
theorem claim8_cube_radius_witness :
    addRandomObjects envC 2 1 sC = Outcome.ok objsC posC drawsC trW ∧
    (peC0.r = (if drC.objName = "Cube" then Q2.divSqrt2 drC.rCat else Q2.ofRat drC.rCat) ∧
      (drC.objName = "Cube" → peC0.r.toReal = (drC.rCat : ℝ) / Real.sqrt 2) ∧
      (drC.objName ≠ "Cube" → peC0.r.toReal = (drC.rCat : ℝ))) :=
  ⟨runC_eval,
    claim8_cube_radius envC 2 1 sC objsC posC drawsC trW runC_eval 0 peC0 drC rfl rfl⟩

/-- C9 witness: the trace of object 0 of the concrete run is its block
of draws in source order, obtained from the amended claim theorem. -/
theorem claim9_draw_order_witness :
    addRandomObjects envW 2 1 sW = Outcome.ok objsW posW drawsW trW ∧
    (∃ m, 1 ≤ m ∧ trW.filter (fun e => e.idx == 0) = blockOf 0 m) :=
  ⟨runW_eval,
    claim9_draw_order envW 2 1 sW objsW posW drawsW trW runW_eval 0 (by omega)⟩

/-- C9 counterexample: in the concrete run's trace, object 0's size
draw (index 0 of the trace) happens before its position draw (index 1),
so the claimed ordering `sizeAfterPositions` is false. -/
theorem claim9_draw_order_counterexample :
    addRandomObjects envW 2 1 sW = Outcome.ok objsW posW drawsW trW ∧
    trW[0]? = some (Ev.size 0) ∧ trW[1]? = some (Ev.pos 0) ∧
    ¬ sizeAfterPositions trW :=
  ⟨runW_eval, rfl, rfl, fun hc => absurd (hc 0 0 1 rfl rfl) (by omega)⟩

/-!
C7: with more than two objects requested, the placement of object 2
hits the `raise NotImplementedError` of line 434 before any acceptance;
under a well-formed configuration no other exception can fire first, so
every terminating run errors with `NotImplementedError` (a run may also
fail to terminate within the given fuel or stream, which is `stuck`).
-/

/-- The four horizontal direction vectors are horizontal, i.e. the
`assert direction_vec[2] == 0` of line 447 passes. -/
def HorizZ (d : Directions) : Prop :=
  d.left.z = 0 ∧ d.right.z = 0 ∧ d.front.z = 0 ∧ d.behind.z = 0

/-- The optional compatibility table is absent or well-formed: every
listed shape occurs in `object_mapping` and every listed color in the
color dictionary (so lines 476 to 477 cannot raise). -/
def CombosOK (env : Env) : Prop :=
  match env.combos with
  | none => True
  | some cs =>
    ∀ c ∈ cs, ((objectMapping env.props).filter (fun kv => kv.2 = c.1)) ≠ [] ∧
      ∀ col ∈ c.2, ((colorNameToRgba env.props).lookup col).isSome

theorem horizMargins_ok (margin dx dy : ℚ) :
    ∀ l : List Vec3, (∀ v ∈ l, v.z = 0) →
      ∃ b, horizMargins margin dx dy l = Except.ok b := by
  intro l
  induction l with
  | nil => intro _; exact ⟨true, rfl⟩
  | cons v rest ih =>
    intro hz
    unfold horizMargins
    rw [if_neg (not_ne_iff.mpr (hz v (List.mem_cons_self v rest)))]
    split_ifs with hm
    · exact ⟨false, rfl⟩
    · exact ih (fun u hu => hz u (List.mem_cons_of_mem v hu))

theorem checkAgainst_ok (minDist margin : ℚ) (d : Directions) (hz : HorizZ d) (r x y z : ℚ) :
    ∀ positions : List PosEntry,
      ∃ b, checkAgainst minDist margin d r x y z positions = Except.ok b := by
  intro positions
  induction positions with
  | nil => exact ⟨true, rfl⟩
  | cons pe rest ih =>
    unfold checkAgainst
    split_ifs with hd
    · exact ⟨false, rfl⟩
    · obtain ⟨b, hb⟩ := horizMargins_ok margin (x - pe.x) (y - pe.y) (horizDirs d)
        (by
          intro v hv
          obtain ⟨h1, h2, h3, h4⟩ := hz
          simp only [horizDirs, List.mem_cons, List.mem_singleton] at hv
          rcases hv with rfl | rfl | rfl | rfl | hv
          · exact h1
          · exact h2
          · exact h3
          · exact h4
          · cases hv)
      rw [hb]
      simp only []
      split_ifs with hv
      · exact ih
      · exact ⟨false, rfl⟩

theorem zDraw_le_one_ne_error (i : ℕ) (hi : i ≤ 1) (s : List RVal) (e : PyErr) :
    zDraw i s ≠ Except.error e := by
  unfold zDraw
  split_ifs with h0 h1
  · intro h; cases h
  · intro h; cases h
  · omega

theorem placeLoop_le_one_ne_error (minDist margin : ℚ) (d : Directions) (hz : HorizZ d)
    (i : ℕ) (hi : i ≤ 1) (r : ℚ) (positions : List PosEntry) :
    ∀ (tl : ℕ) (s : List RVal) (tr : List Ev) (e : PyErr),
      placeLoop minDist margin d i r positions tl s tr ≠ LoopOut.error e := by
  intro tl
  induction tl with
  | zero => intro s tr e h; cases h
  | succ tl ih =>
    intro s tr e h
    unfold placeLoop at h
    cases hx : drawUniform (-3) 3 s with
    | none => rw [hx] at h; cases h
    | some px =>
      obtain ⟨x0, s1⟩ := px
      rw [hx] at h
      simp only [] at h
      cases hy : drawUniform (-3) 3 s1 with
      | none => rw [hy] at h; cases h
      | some py =>
        obtain ⟨y0, s2⟩ := py
        rw [hy] at h
        simp only [] at h
        cases hzr : zDraw i s2 with
        | error e' => exact zDraw_le_one_ne_error i hi s2 e' hzr
        | ok oz =>
          rw [hzr] at h
          cases oz with
          | none => cases h
          | some pz =>
            obtain ⟨z0, s3⟩ := pz
            simp only [] at h
            obtain ⟨b, hb⟩ := checkAgainst_ok minDist margin d hz r x0 y0 z0 positions
            rw [hb] at h
            cases b with
            | true => cases h
            | false =>
              simp only [] at h
              exact ih s3 (tr ++ [Ev.pos i]) e h

theorem placeLoop_ge_two (minDist margin : ℚ) (d : Directions)
    (i : ℕ) (hi : 2 ≤ i) (r : ℚ) (positions : List PosEntry)
    (tl : ℕ) (htl : 1 ≤ tl) (s : List RVal) (tr : List Ev) :
    placeLoop minDist margin d i r positions tl s tr = LoopOut.stuck ∨
    placeLoop minDist margin d i r positions tl s tr =
      LoopOut.error PyErr.notImplementedError := by
  cases tl with
  | zero => omega
  | succ tl =>
    unfold placeLoop
    cases hx : drawUniform (-3) 3 s with
    | none => exact Or.inl rfl
    | some px =>
      obtain ⟨x0, s1⟩ := px
      simp only []
      cases hy : drawUniform (-3) 3 s1 with
      | none => exact Or.inl rfl
      | some py =>
        obtain ⟨y0, s2⟩ := py
        simp only []
        have hzr : zDraw i s2 = Except.error PyErr.notImplementedError := by
          unfold zDraw
          rw [if_neg (by omega), if_neg (by omega)]
        rw [hzr]
        exact Or.inr rfl

theorem sampleShapeColor_ne_error (env : Env) (hcb : CombosOK env) (s : List RVal)
    (e : PyErr) : sampleShapeColor env s ≠ Except.error e := by
  unfold sampleShapeColor
  unfold CombosOK at hcb
  cases hco : env.combos with
  | none =>
    simp only []
    cases hs1 : drawChoice (objectMapping env.props) s with
    | none => intro h; cases h
    | some p1 =>
      obtain ⟨⟨a1, a2⟩, s1⟩ := p1
      simp only []
      cases hs2 : drawChoice (colorNameToRgba env.props) s1 with
      | none => intro h; cases h
      | some p2 =>
        obtain ⟨⟨b1, b2⟩, s2⟩ := p2
        intro h; cases h
  | some cs =>
    rw [hco] at hcb
    simp only []
    cases hs1 : drawChoice cs s with
    | none => intro h; cases h
    | some p1 =>
      obtain ⟨⟨objNameOut, colorChoices⟩, s1⟩ := p1
      simp only []
      cases hs2 : drawChoice colorChoices s1 with
      | none => intro h; cases h
      | some p2 =>
        obtain ⟨colorName, s2⟩ := p2
        simp only []
        have hmem := drawChoice_mem cs s _ s1 hs1
        obtain ⟨hfil, hcol⟩ := hcb _ hmem
        cases hhd : ((objectMapping env.props).filter (fun kv => kv.2 = objNameOut)).head? with
        | none =>
          exact absurd (List.head?_eq_none_iff.mp hhd) hfil
        | some q =>
          obtain ⟨objName, dk⟩ := q
          simp only []
          have hcmem := drawChoice_mem colorChoices s1 colorName s2 hs2
          have := hcol colorName hcmem
          cases hlk : (colorNameToRgba env.props).lookup colorName with
          | none => rw [hlk] at this; cases this
          | some rgba => intro h; cases h

theorem pickMaterial_ok (p : Properties) (rm i : ℕ) (hrm : rm ≤ 1) (hi : i ≤ 1)
    (hmm : 2 ≤ (materialMapping p).length) :
    ∃ mat, pickMaterial p rm i = Except.ok (some mat) := by
  unfold pickMaterial
  interval_cases i
  · rw [if_pos rfl]
    have : rm < (materialMapping p).length := by omega
    exact ⟨(materialMapping p)[rm], by rw [List.getElem?_eq_getElem this]⟩
  · rw [if_neg (by omega), if_pos rfl]
    have : 1 - rm < (materialMapping p).length := by omega
    exact ⟨(materialMapping p)[1 - rm], by rw [List.getElem?_eq_getElem this]⟩

theorem placeOne_le_one_ne_error (env : Env) (hz : HorizZ env.dirs) (hcb : CombosOK env)
    (hmm : 2 ≤ (materialMapping env.props).length)
    (rm : ℕ) (hrm : rm ≤ 1) (i : ℕ) (hi : i ≤ 1) (positions : List PosEntry)
    (s : List RVal) (tr : List Ev) (e : PyErr) :
    placeOne env rm i positions s tr ≠ OneOut.error e := by
  unfold placeOne
  cases hsz : drawChoice env.props.sizes s with
  | none => intro h; cases h
  | some psz =>
    obtain ⟨⟨sizeName, r⟩, s1⟩ := psz
    simp only []
    cases hpl : placeLoop env.args.minDist env.args.margin env.dirs i r positions
        env.args.maxRetries s1 (tr ++ [Ev.size i]) with
    | stuck => intro h; cases h
    | restart s2 => intro h; cases h
    | error e' =>
      exact absurd hpl
        (placeLoop_le_one_ne_error env.args.minDist env.args.margin env.dirs hz i hi r
          positions env.args.maxRetries s1 (tr ++ [Ev.size i]) e')
    | placed x y z s2 tr2 =>
      simp only []
      cases hsc : sampleShapeColor env s2 with
      | error e' => exact absurd hsc (sampleShapeColor_ne_error env hcb s2 e')
      | ok osc =>
        cases osc with
        | none => intro h; cases h
        | some psc =>
          obtain ⟨⟨objName, objNameOut, colorName, rgba⟩, s3⟩ := psc
          simp only []
          cases hth : drawRandom01 s3 with
          | none => intro h; cases h
          | some pth =>
            obtain ⟨u, s4⟩ := pth
            simp only []
            obtain ⟨mat, hmt⟩ := pickMaterial_ok env.props rm i hrm hi hmm
            rw [hmt]
            intro h; cases h

theorem placeOne_eq_two (env : Env) (hmr : 1 ≤ env.args.maxRetries)
    (rm i : ℕ) (hi : 2 ≤ i) (positions : List PosEntry) (s : List RVal) (tr : List Ev) :
    placeOne env rm i positions s tr = OneOut.stuck ∨
    placeOne env rm i positions s tr = OneOut.error PyErr.notImplementedError := by
  unfold placeOne
  cases hsz : drawChoice env.props.sizes s with
  | none => exact Or.inl rfl
  | some psz =>
    obtain ⟨⟨sizeName, r⟩, s1⟩ := psz
    simp only []
    rcases placeLoop_ge_two env.args.minDist env.args.margin env.dirs i hi r positions
        env.args.maxRetries hmr s1 (tr ++ [Ev.size i]) with hpl | hpl
    · rw [hpl]
      exact Or.inl rfl
    · rw [hpl]
      exact Or.inr rfl

theorem placeAll_ge_three (env : Env) (hz : HorizZ env.dirs) (hcb : CombosOK env)
    (hmm : 2 ≤ (materialMapping env.props).length) (hmr : 1 ≤ env.args.maxRetries)
    (rm : ℕ) (hrm : rm ≤ 1) :
    ∀ (k i : ℕ), i ≤ 2 → 3 ≤ i + k →
      ∀ (P : List PosEntry) (O : List SceneObj) (D : List ObjDraw)
        (s : List RVal) (tr : List Ev),
        (∃ s2, placeAll env rm i k P O D s tr = PassOut.restart s2) ∨
        placeAll env rm i k P O D s tr = PassOut.stuck ∨
        placeAll env rm i k P O D s tr = PassOut.error PyErr.notImplementedError := by
  intro k
  induction k with
  | zero => intro i hi2 hik P O D s tr; omega
  | succ k ih =>
    intro i hi2 hik P O D s tr
    unfold placeAll
    rcases Nat.lt_or_ge i 2 with hilt | hige
    · cases hone : placeOne env rm i P s tr with
      | one o pe dr s2 tr2 =>
        simp only []
        exact ih (i + 1) (by omega) (by omega) (P ++ [pe]) (O ++ [o]) (D ++ [dr]) s2 tr2
      | restart s2 => exact Or.inl ⟨s2, rfl⟩
      | stuck => exact Or.inr (Or.inl rfl)
      | error e =>
        exact absurd hone (placeOne_le_one_ne_error env hz hcb hmm rm hrm i (by omega) P s tr e)
    · rcases placeOne_eq_two env hmr rm i (by omega) P s tr with hone | hone
      · rw [hone]
        exact Or.inr (Or.inl rfl)
      · rw [hone]
        exact Or.inr (Or.inr rfl)

/-- C7: for every call with more than two objects (and a well-formed
configuration: horizontal direction vectors, a material catalog with at
least two entries, a well-formed or absent compatibility table, and at
least one allowed retry), `add_random_objects` never returns an object
list: every terminating run raises `NotImplementedError` when the loop
reaches object index 2, and the error propagates to the caller without
being retried; the only other possibility is that the run was not
observed to terminate (`stuck`). -/
theorem claim7_three_objects_error (env : Env) (n : ℕ) (hn : 3 ≤ n)
    (hmr : 1 ≤ env.args.maxRetries) (hz : HorizZ env.dirs)
    (hmm : 2 ≤ (materialMapping env.props).length) (hcb : CombosOK env) :
    ∀ (fuel : ℕ) (s : List RVal),
      addRandomObjects env n fuel s = Outcome.error PyErr.notImplementedError ∨
      addRandomObjects env n fuel s = Outcome.stuck := by
  intro fuel
  induction fuel with
  | zero => intro s; exact Or.inr rfl
  | succ fuel ih =>
    intro s
    unfold addRandomObjects
    cases hrm : drawRandint 1 s with
    | none => exact Or.inr rfl
    | some prm =>
      obtain ⟨rm, s1⟩ := prm
      simp only []
      rcases placeAll_ge_three env hz hcb hmm hmr rm (drawRandint_spec 1 s rm s1 hrm)
          n 0 (by omega) (by omega) [] [] [] s1 [] with ⟨s2, hpa⟩ | hpa | hpa
      · rw [hpa]
        exact ih s2
      · rw [hpa]
        exact Or.inr rfl
      · rw [hpa]
        exact Or.inl rfl

/-- Stream reaching object index 2: objects 0 and 1 are placed as in
the main witness run, then object 2 draws x and y and hits the
`NotImplementedError` branch of the z assignment. -/
def s7 : List RVal :=
  [RVal.rint 0, RVal.rint 0, RVal.unif 0, RVal.unif 0, RVal.unif 2,
   RVal.rint 0, RVal.rint 0, RVal.unif 0,
   RVal.rint 0, RVal.unif 2, RVal.unif 0, RVal.rint 0, RVal.rint 0, RVal.unif 0,
   RVal.rint 0, RVal.unif 0, RVal.unif 0]

set_option maxHeartbeats 1000000 in
/-- C7 witness: the theorem applied to a concrete three-object call,
plus the concrete evaluation showing this run does raise. -/
theorem claim7_three_objects_error_witness :
    (addRandomObjects envW 3 1 s7 = Outcome.error PyErr.notImplementedError ∨
      addRandomObjects envW 3 1 s7 = Outcome.stuck) ∧
    addRandomObjects envW 3 1 s7 = Outcome.error PyErr.notImplementedError :=
  ⟨claim7_three_objects_error envW 3 (by omega) (by norm_num [envW])
      (by norm_num [HorizZ, envW, dirsW])
      (by norm_num [materialMapping, envW, propsW]) (by trivial) 1 s7,
    by
      norm_num [addRandomObjects, placeAll, placeOne, placeLoop, drawRandint, drawChoice,
        drawUniform, drawRandom01, zDraw, checkAgainst, distTooClose, horizMargins,
        vertMargins, horizDirs, vertDirs, sqrtLtQ2, Q2.blt, Q2.ofRat, Q2.add, Q2.mul,
        Q2.divSqrt2, sampleShapeColor, pickMaterial, materialMapping, objectMapping,
        colorNameToRgba, envW, propsW, dirsW, s7]⟩

/-!
C10: the occlusion restart branch is dead code.
-/

theorem placeOne_minPixels (env : Env) (p : ℕ) (rm i : ℕ) (positions : List PosEntry)
    (s : List RVal) (tr : List Ev) :
    placeOne { env with args := { env.args with minPixelsPerObject := p } } rm i positions s tr =
      placeOne env rm i positions s tr := rfl

theorem placeAll_minPixels (env : Env) (p : ℕ) (rm : ℕ) :
    ∀ (k i : ℕ) (P : List PosEntry) (O : List SceneObj) (D : List ObjDraw)
      (s : List RVal) (tr : List Ev),
      placeAll { env with args := { env.args with minPixelsPerObject := p } } rm i k P O D s tr =
        placeAll env rm i k P O D s tr := by
  intro k
  induction k with
  | zero => intro i P O D s tr; rfl
  | succ k ih =>
    intro i P O D s tr
    unfold placeAll
    rw [placeOne_minPixels]
    cases placeOne env rm i P s tr with
    | one o pe dr s2 tr2 =>
      simp only []
      exact ih (i + 1) (P ++ [pe]) (O ++ [o]) (D ++ [dr]) s2 tr2
    | restart s2 => rfl
    | error e => rfl
    | stuck => rfl

/-- C10: the post-placement occlusion restart branch is unreachable
(`all_visible` is the literal `True` since the `check_visibility` call
is commented out), so `add_random_objects` agrees with the variant that
has the branch removed, for every value of `min_pixels_per_object` —
that argument has no effect on the output. -/
theorem claim10_visibility_branch (env : Env) (p : ℕ) (n : ℕ) :
    ∀ (fuel : ℕ) (s : List RVal),
      addRandomObjects { env with args := { env.args with minPixelsPerObject := p } } n fuel s =
        addRandomObjectsNoVis env n fuel s := by
  intro fuel
  induction fuel with
  | zero => intro s; rfl
  | succ fuel ih =>
    intro s
    unfold addRandomObjects addRandomObjectsNoVis
    cases hrm : drawRandint 1 s with
    | none => rfl
    | some prm =>
      obtain ⟨rm, s1⟩ := prm
      simp only []
      rw [placeAll_minPixels]
      cases placeAll env rm 0 n [] [] [] s1 [] with
      | done objs positions draws s2 tr => rfl
      | restart s2 =>
        simp only []
        exact ih s2
      | error e => rfl
      | stuck => rfl

/-!
C3: `compute_all_relationships`.
-/

theorem dotDiff_self (c v : Vec3) : dotDiff c c v = 0 := by
  simp [dotDiff]

theorem relatedAux_mem (o1 : SceneObj) (v : Vec3) (eps : ℚ) :
    ∀ (l : List SceneObj) (j t : ℕ),
      t ∈ relatedAux o1 v eps j l ↔
        ∃ (m : ℕ) (om : SceneObj), l[m]? = some om ∧ t = j + m ∧ o1 ≠ om ∧
          eps < dotDiff o1.coords om.coords v := by
  intro l
  induction l with
  | nil =>
    intro j t
    simp [relatedAux]
  | cons o2 rest ih =>
    intro j t
    unfold relatedAux
    split_ifs with he hd
    · rw [ih (j + 1) t]
      constructor
      · rintro ⟨m, om, hm, rfl, hne, hdot⟩
        exact ⟨m + 1, om, by simpa using hm, by omega, hne, hdot⟩
      · rintro ⟨m, om, hm, rfl, hne, hdot⟩
        cases m with
        | zero =>
          rw [List.getElem?_cons_zero] at hm
          obtain rfl : o2 = om := Option.some.inj hm
          exact absurd he hne
        | succ m =>
          rw [List.getElem?_cons_succ] at hm
          exact ⟨m, om, hm, by omega, hne, hdot⟩
    · rw [List.mem_cons, ih (j + 1) t]
      constructor
      · rintro (rfl | ⟨m, om, hm, rfl, hne, hdot⟩)
        · exact ⟨0, o2, List.getElem?_cons_zero, by omega, he, hd⟩
        · exact ⟨m + 1, om, by simpa using hm, by omega, hne, hdot⟩
      · rintro ⟨m, om, hm, rfl, hne, hdot⟩
        cases m with
        | zero =>
          rw [List.getElem?_cons_zero] at hm
          obtain rfl : o2 = om := Option.some.inj hm
          left
          omega
        | succ m =>
          rw [List.getElem?_cons_succ] at hm
          right
          exact ⟨m, om, hm, by omega, hne, hdot⟩
    · rw [ih (j + 1) t]
      constructor
      · rintro ⟨m, om, hm, rfl, hne, hdot⟩
        exact ⟨m + 1, om, by simpa using hm, by omega, hne, hdot⟩
      · rintro ⟨m, om, hm, rfl, hne, hdot⟩
        cases m with
        | zero =>
          rw [List.getElem?_cons_zero] at hm
          obtain rfl : o2 = om := Option.some.inj hm
          exact absurd hdot hd
        | succ m =>
          rw [List.getElem?_cons_succ] at hm
          exact ⟨m, om, hm, by omega, hne, hdot⟩

theorem relatedAux_lb (o1 : SceneObj) (v : Vec3) (eps : ℚ) (l : List SceneObj)
    (j t : ℕ) (h : t ∈ relatedAux o1 v eps j l) : j ≤ t := by
  obtain ⟨m, om, -, rfl, -, -⟩ := (relatedAux_mem o1 v eps l j t).mp h
  omega

theorem relatedAux_chain (o1 : SceneObj) (v : Vec3) (eps : ℚ) :
    ∀ (l : List SceneObj) (j : ℕ), List.Chain' (· < ·) (relatedAux o1 v eps j l) := by
  intro l
  induction l with
  | nil => intro j; simp [relatedAux]
  | cons o2 rest ih =>
    intro j
    unfold relatedAux
    split_ifs with he hd
    · exact ih (j + 1)
    · rw [List.chain'_cons']
      refine ⟨?_, ih (j + 1)⟩
      intro b hb
      have hmem : b ∈ relatedAux o1 v eps (j + 1) rest := List.mem_of_mem_head? hb
      have := relatedAux_lb o1 v eps rest (j + 1) b hmem
      omega
    · exact ih (j + 1)

theorem relMap_spec (objs : List SceneObj) (eps : ℚ) (heps : 0 ≤ eps) (v : Vec3) :
    (objs.map (fun o1 => relatedAux o1 v eps 0 objs)).length = objs.length ∧
    ∀ (i : ℕ) (oi : SceneObj) (li : List ℕ),
      objs[i]? = some oi →
      (objs.map (fun o1 => relatedAux o1 v eps 0 objs))[i]? = some li →
      List.Chain' (· < ·) li ∧
      ∀ (j : ℕ), j ∈ li ↔ ∃ oj, objs[j]? = some oj ∧ j ≠ i ∧
        eps < dotDiff oi.coords oj.coords v := by
  refine ⟨List.length_map _ _, ?_⟩
  intro i oi li hoi hli
  rw [List.getElem?_map, hoi] at hli
  obtain rfl : relatedAux oi v eps 0 objs = li := Option.some.inj hli
  refine ⟨relatedAux_chain oi v eps objs 0, ?_⟩
  intro j
  rw [relatedAux_mem]
  constructor
  · rintro ⟨m, om, hm, rfl, hne, hdot⟩
    refine ⟨om, by simpa using hm, ?_, hdot⟩
    intro hji
    simp only [Nat.zero_add] at hji ⊢
    rw [hji] at hm
    rw [hoi] at hm
    obtain rfl : oi = om := Option.some.inj hm
    exact hne rfl
  · rintro ⟨oj, hj, hne, hdot⟩
    refine ⟨j, oj, hj, by omega, ?_, hdot⟩
    intro hee
    rw [hee] at hdot
    rw [dotDiff_self] at hdot
    exact absurd heps (by linarith)

/-- C3: when the scene's directions dictionary holds the six standard
keys in the order `render_scene` inserts them, and `eps` is nonnegative
(as its default 0.2 is), `compute_all_relationships` returns a mapping
whose keys are exactly the four horizontal names (no above/below
entries), and for each name the entry at object index `i` is the
strictly ascending list of exactly the indices `j ≠ i` whose
displacement from `i` has dot product with that direction vector
exceeding `eps`. -/
theorem claim3_relationships (dirs : List (String × Vec3)) (objs : List SceneObj) (eps : ℚ)
    (hdirs : dirs.map Prod.fst = ["behind", "front", "left", "right", "above", "below"])
    (heps : 0 ≤ eps) :
    (computeAllRelationships dirs objs eps).map Prod.fst =
      ["behind", "front", "left", "right"] ∧
    ∀ (name : String) (v : Vec3) (L : List (List ℕ)),
      (name, v) ∈ dirs → (name, L) ∈ computeAllRelationships dirs objs eps →
      L.length = objs.length ∧
      ∀ (i : ℕ) (oi : SceneObj) (li : List ℕ), objs[i]? = some oi → L[i]? = some li →
        List.Chain' (· < ·) li ∧
        ∀ (j : ℕ), j ∈ li ↔ ∃ oj, objs[j]? = some oj ∧ j ≠ i ∧
          eps < dotDiff oi.coords oj.coords v := by
  rcases dirs with - | ⟨⟨n1, v1⟩, - | ⟨⟨n2, v2⟩, - | ⟨⟨n3, v3⟩, - | ⟨⟨n4, v4⟩,
    - | ⟨⟨n5, v5⟩, - | ⟨⟨n6, v6⟩, rest⟩⟩⟩⟩⟩⟩ <;> simp only [List.map_cons, List.map_nil] at hdirs
  · cases hdirs
  · cases hdirs
  · cases hdirs
  · cases hdirs
  · cases hdirs
  · cases hdirs
  · rw [List.cons.injEq, List.cons.injEq, List.cons.injEq, List.cons.injEq,
      List.cons.injEq, List.cons.injEq] at hdirs
    obtain ⟨rfl, rfl, rfl, rfl, rfl, rfl, hrest⟩ := hdirs
    obtain rfl : rest = [] := List.map_eq_nil_iff.mp hrest
    have hres : computeAllRelationships
        [("behind", v1), ("front", v2), ("left", v3), ("right", v4),
         ("above", v5), ("below", v6)] objs eps =
        [("behind", objs.map (fun o1 => relatedAux o1 v1 eps 0 objs)),
         ("front", objs.map (fun o1 => relatedAux o1 v2 eps 0 objs)),
         ("left", objs.map (fun o1 => relatedAux o1 v3 eps 0 objs)),
         ("right", objs.map (fun o1 => relatedAux o1 v4 eps 0 objs))] := by
      simp [computeAllRelationships]
    rw [hres]
    constructor
    · simp
    · intro name v L hv hL
      simp only [List.mem_cons, List.not_mem_nil, or_false, Prod.mk.injEq] at hv hL
      rcases hv with ⟨rfl, rfl⟩ | ⟨rfl, rfl⟩ | ⟨rfl, rfl⟩ | ⟨rfl, rfl⟩ | ⟨rfl, rfl⟩ | ⟨rfl, rfl⟩
      · simp only [String.reduceEq, false_and, or_false, false_or, true_and, or_self] at hL
        subst hL
        exact relMap_spec objs eps heps v
      · simp only [String.reduceEq, false_and, or_false, false_or, true_and, or_self] at hL
        subst hL
        exact relMap_spec objs eps heps v
      · simp only [String.reduceEq, false_and, or_false, false_or, true_and, or_self] at hL
        subst hL
        exact relMap_spec objs eps heps v
      · simp only [String.reduceEq, false_and, or_false, false_or, true_and, or_self] at hL
        subst hL
        exact relMap_spec objs eps heps v
      · simp only [String.reduceEq, false_and, or_false, false_or, or_self] at hL
      · simp only [String.reduceEq, false_and, or_false, false_or, or_self] at hL

/-- The six-entry directions dictionary in source insertion order. -/
def dirs3 : List (String × Vec3) :=
  [("behind", ⟨-1, 0, 0⟩), ("front", ⟨1, 0, 0⟩), ("left", ⟨0, -1, 0⟩),
   ("right", ⟨0, 1, 0⟩), ("above", ⟨0, 0, 1⟩), ("below", ⟨0, 0, -1⟩)]

def obj3A : SceneObj :=
  { shape := "sphere", size := "small", material := "rubber", coords := ⟨0, 0, 0⟩,
    rotation := 0, pixelCoords := (0, 0, 0), color := "red", liquidSrc := false }

def obj3B : SceneObj :=
  { shape := "sphere", size := "small", material := "metal", coords := ⟨2, 0, 0⟩,
    rotation := 0, pixelCoords := (0, 0, 0), color := "blue", liquidSrc := false }

def objs3 : List SceneObj := [obj3A, obj3B]

/-- C3 witness: the claim theorem applied to two objects at `(0,0,0)`
and `(2,0,0)` with the standard direction frame and the default
`eps = 1/5`. -/
theorem claim3_relationships_witness :
    dirs3.map Prod.fst = ["behind", "front", "left", "right", "above", "below"] ∧
    (0 : ℚ) ≤ 1/5 ∧
    ((computeAllRelationships dirs3 objs3 (1/5)).map Prod.fst =
      ["behind", "front", "left", "right"] ∧
    ∀ (name : String) (v : Vec3) (L : List (List ℕ)),
      (name, v) ∈ dirs3 → (name, L) ∈ computeAllRelationships dirs3 objs3 (1/5) →
      L.length = objs3.length ∧
      ∀ (i : ℕ) (oi : SceneObj) (li : List ℕ), objs3[i]? = some oi → L[i]? = some li →
        List.Chain' (· < ·) li ∧
        ∀ (j : ℕ), j ∈ li ↔ ∃ oj, objs3[j]? = some oj ∧ j ≠ i ∧
          (1/5 : ℚ) < dotDiff oi.coords oj.coords v) :=
  ⟨rfl, by norm_num, claim3_relationships dirs3 objs3 (1/5) rfl (by norm_num)⟩

end ClevrEr
